import Mathlib

/-!
Verification development for the multi-agent orchestration backend
(`backend/app`): a shallow embedding of the task-orchestration state machine
(`orchestrator/orchestrator.py`), the plan model / synthesis logic
(`agents/supervisor_agent.py`), the free-text responder (`agents/llm_agent.py`),
the retrieval post-processing (`agents/neo4j_agent.py`) and the provenance
recorder (`audit/neo4j_audit.py`).

Modelling conventions:
* External calls (language-model completions, the Neo4j responder, the
  provenance store) are opaque oracles.  A Python call that may raise is an
  oracle returning `Except String α`, the error being `str(e)`.
* Wall-clock data (`datetime.now()`, `time.time()`) is outside the embedding:
  timestamps are either dropped or passed in as opaque strings, and the
  `processing_time` / `totalTime` / `startTime` / `endTime` fields of the
  response objects are not modelled.
* Fire-and-forget websocket broadcasts (`_send_websocket_update_sync` etc.)
  are side effects with no influence on the returned data; they are not
  modelled.
* Python dicts are modelled as association lists with first-occurrence key
  order and last-write-wins values, matching `dict` insertion semantics.
* Python `str.replace` with single-character arguments is modelled as a
  character map; `str.strip()` as `String.trim`; values inside property maps
  are modelled as already-serialized strings (`str` on them is the identity)
  with `none` standing for Python `None`.
-/

/-- Python truthiness of an optional string: `None` and `""` are falsy. -/
def pyTruthy (o : Option String) : Bool :=
  match o with
  | none => false
  | some s => s ≠ ""

/-- Python `a or b` for `a` an optional string and `b` a plain default. -/
def pyOrStr (a : Option String) (b : String) : String :=
  match a with
  | some s => if s = "" then b else s
  | none => b

/-- One step of Python `str.title()`: upper-case an alphabetic character that
follows a non-alphabetic one, lower-case the rest of each alphabetic run. -/
def pyTitleAux : Bool → List Char → List Char
  | _, [] => []
  | prevAlpha, c :: rest =>
    (if c.isAlpha then (if prevAlpha then c.toLower else c.toUpper) else c)
      :: pyTitleAux c.isAlpha rest

/-- Python `str.title()` (ASCII behaviour). -/
def pyTitle (s : String) : String :=
  String.mk (pyTitleAux false s.toList)

/-- Character map over a string (kernel-reducible replacement for `String.map`). -/
def mapChars (f : Char → Char) (s : String) : String :=
  String.mk (s.toList.map f)

/-- Python `s.replace("_", " ")` (single-character replace = character map). -/
def underscoreToSpace (s : String) : String :=
  mapChars (fun c => if c = '_' then ' ' else c) s

/-- Python `s.replace(" ", "_")` (single-character replace = character map). -/
def spaceToUnderscore (s : String) : String :=
  mapChars (fun c => if c = ' ' then '_' else c) s

/-- Python `s.lower()` (ASCII behaviour), as a character map. -/
def pyLower (s : String) : String :=
  mapChars Char.toLower s

/-- Python `s.strip()` : drop whitespace from both ends. -/
def pyStrip (s : String) : String :=
  String.mk (((s.toList.dropWhile Char.isWhitespace).reverse.dropWhile Char.isWhitespace).reverse)

/-- Python `s[:n]`. -/
def pyTake (s : String) (n : Nat) : String :=
  String.mk (s.toList.take n)

/-- Display name of a responder id, `task.agent.replace("_", " ").title()` in
the source. -/
def displayAgent (a : String) : String :=
  pyTitle (underscoreToSpace a)

/-- An apostrophe as a string (kept out of string literals). -/
def apostrophe : String := (Char.ofNat 39).toString

/-- Worker for `pyWords`: accumulate the current word (reversed) while
scanning the character list. -/
def pyWordsAux (cur : List Char) : List Char → List String
  | [] => if cur.isEmpty then [] else [String.mk cur.reverse]
  | c :: rest =>
    if c.isWhitespace then
      if cur.isEmpty then pyWordsAux [] rest
      else String.mk cur.reverse :: pyWordsAux [] rest
    else pyWordsAux (c :: cur) rest

/-- Python `s.split()` : split on whitespace runs, dropping empty pieces. -/
def pyWords (s : String) : List String :=
  pyWordsAux [] s.toList

/-- Characters stripped by Python `strip(STRIPPED)` with the double-quote and
single-quote characters. -/
def isQuoteChar (c : Char) : Bool := c = '"' ∨ c.toNat = 39

/-- Python `s.strip(chars)` for the quote-character set. -/
def pyStripQuotes (s : String) : String :=
  String.mk (((s.toList.dropWhile isQuoteChar).reverse.dropWhile isQuoteChar).reverse)

/-! ## Agent registry (`app/config/agents.py`, `models.Agent`) -/

/-- Projection of `models.Agent` onto the fields the orchestration core reads:
id, presentational color and the enabled flag. -/
structure AgentCfg where
  id : String
  color : String
  isEnabled : Bool
deriving Repr, DecidableEq

/-- `get_default_agents()` from `app/config/agents.py` (projected fields). -/
def defaultAgents : List AgentCfg :=
  [ { id := "llm_agent", color := "#3F51B5", isEnabled := true },
    { id := "neo4j_agent", color := "#F44336", isEnabled := true } ]

/-- Enabled agent ids, `[agent.id for agent in ... if agent.isEnabled]`. -/
def enabledIdsOf (cfgs : List AgentCfg) : List String :=
  (cfgs.filter (fun a => a.isEnabled)).map (fun a => a.id)

/-! ## Plan model (`agents/supervisor_agent.py`) -/

/-- `supervisor_agent.Task` at plan-creation time: id, description, agent. -/
structure PTask where
  id : String
  description : String
  agent : String
deriving Repr, DecidableEq

/-- One entry of the parsed `tasks` array of the planning reply.  A missing
JSON key is `none`; reading it (`task_data["id"]`) raises `KeyError`. -/
structure TaskItemData where
  id : Option String
  description : Option String
  agent : Option String
deriving Repr, DecidableEq

/-- Parsed planning reply, `{analysis, strategy, tasks}`.  `analysis` and
`strategy` are read with `.get(..., default)`, so a missing key is tolerated;
a missing `tasks` key yields `[]` (`plan_data.get("tasks", [])`). -/
structure PlanData where
  analysis : Option String
  strategy : Option String
  tasks : List TaskItemData
deriving Repr, DecidableEq

/-- `supervisor_agent.AgentPlan` (without the wall-clock `created_at`). -/
structure AgentPlan where
  original_query : String
  analysis : String
  strategy : String
  tasks : List PTask
deriving Repr, DecidableEq

/-- The task-extraction loop of `create_plan`: each entry must supply
`id`, `description` and `agent`, otherwise a `KeyError` escapes to the
surrounding `except` handler. -/
def extractPlanTasks : List TaskItemData → Except String (List PTask)
  | [] => Except.ok []
  | td :: rest =>
    match td.id, td.description, td.agent with
    | some i, some d, some a =>
      (extractPlanTasks rest).map (fun ts => { id := i, description := d, agent := a } :: ts)
    | none, _, _ => Except.error "KeyError: id"
    | some _, none, _ => Except.error "KeyError: description"
    | some _, some _, none => Except.error "KeyError: agent"

/-- The fallback routing of `create_plan`:
`"llm_agent" if "llm_agent" in enabled_agent_ids else enabled_agent_ids[0] if enabled_agent_ids else "llm_agent"`. -/
def fallbackAgentOf (enabledIds : List String) : String :=
  if enabledIds.contains "llm_agent" then "llm_agent"
  else
    match enabledIds with
    | [] => "llm_agent"
    | x :: _ => x

/-- The parse pipeline inside `create_plan`'s `try` block: the completion
call / JSON parse (the `reply` oracle) followed by task extraction.  An
`Except.error` is an exception reaching the `except` handler. -/
def planParse (reply : Except String PlanData) : Except String (PlanData × List PTask) :=
  reply.bind (fun pd => (extractPlanTasks pd.tasks).map (fun ts => (pd, ts)))

/-- `SupervisorAgent.create_plan` from the completion reply onward.  The
prompt construction (enabled-agent listing, history, `label=value` pairs) only
feeds the oracle and is not replayed here. -/
def createPlan (query : String) (cfgs : List AgentCfg)
    (reply : Except String PlanData) : AgentPlan :=
  match planParse reply with
  | Except.ok (pd, ts) =>
    { original_query := query,
      analysis := pd.analysis.getD "Analysis not provided",
      strategy := pd.strategy.getD "Strategy not provided",
      tasks := ts }
  | Except.error _ =>
    { original_query := query,
      analysis := "Fallback analysis due to planning error",
      strategy := "Direct delegation to available agent",
      tasks := [ { id := "task_1",
                   description := "Handle query: " ++ query,
                   agent := fallbackAgentOf (enabledIdsOf cfgs) } ] }

/-- `generate_session_title`: strip + quote-strip + 50-char truncation on
success, the first six whitespace-separated words of the query on failure. -/
def generateTitle (query : String) (reply : Except String String) : String :=
  match reply with
  | Except.ok raw =>
    let t := pyStripQuotes (pyStrip raw)
    if t.length > 50 then pyTake t 47 ++ "..." else t
  | Except.error _ =>
    let ws := pyWords query
    String.intercalate " " (ws.take 6) ++ (if ws.length > 6 then "..." else "")

example : createPlan "what?" defaultAgents (Except.error "boom") =
    { original_query := "what?",
      analysis := "Fallback analysis due to planning error",
      strategy := "Direct delegation to available agent",
      tasks := [{ id := "task_1", description := "Handle query: what?", agent := "llm_agent" }] } := by
  decide

example : generateTitle "one two three four five six seven" (Except.error "x") =
    "one two three four five six..." := by decide

/-! ## Execution engine (`orchestrator/orchestrator.py`)

`process_query` builds `tasks = {task.id: task for task in plan.tasks}` and
walks the dict values in order, running each task through `_execute_task`
under a per-task `try`/`except`.  Task records are modelled by `TaskState`
(the wall-clock `created_at`/`started_at`/`completed_at` fields and the
`graph_data` attachment are not modelled).  A responder invocation is an
oracle `PTask → String → Except String String` receiving the enhanced input;
`Except.error e` models an exception with text `str(e) = e`. -/

/-- Mutable task record as the Engine sees it. -/
structure TaskState where
  id : String
  description : String
  agent : String
  status : String
  result : String
  actual_input : Option String
deriving Repr, DecidableEq

/-- Fresh task state at plan creation (`status="pending"`, `result=""`). -/
def initState (t : PTask) : TaskState :=
  { id := t.id, description := t.description, agent := t.agent,
    status := "pending", result := "", actual_input := none }

/-- One context line: `f"\n\nPrevious result from {prev_task.agent}: {prev_task.result}"`. -/
def ctxEntry (t : TaskState) : String :=
  "\n\nPrevious result from " ++ t.agent ++ ": " ++ t.result

/-- The context-accumulation loop of `_execute_task`: concatenate `ctxEntry`
for every task in the map whose status is `"completed"` and whose id differs
from the current task's id, in map order. -/
def contextFrom : List TaskState → String → String
  | [], _ => ""
  | t :: rest, selfId =>
    (if t.status = "completed" ∧ t.id ≠ selfId then ctxEntry t else "") ++
      contextFrom rest selfId

/-- `enhanced_input`: the description, plus the context block when the
context string is non-empty (Python truthiness of the string). -/
def enhanceInput (description ctx : String) : String :=
  if ctx = "" then description
  else description ++ "\n\nContext from previous tasks:" ++ ctx

/-- The context block built from a list of task states without any filtering:
used to state what `contextFrom` collects. -/
def prevResultsBlock : List TaskState → String
  | [] => ""
  | t :: rest => ctxEntry t ++ prevResultsBlock rest

/-- The current task right after `task.status = "running"` is set. -/
def runningState (t : PTask) : TaskState :=
  { id := t.id, description := t.description, agent := t.agent,
    status := "running", result := "", actual_input := none }

/-- The enhanced input of the current task, built over the whole task map
(executed tasks, the running task itself, the still-pending tasks). -/
def stepInput (done : List TaskState) (t : PTask) (pending : List TaskState) : String :=
  enhanceInput t.description (contextFrom (done ++ runningState t :: pending) t.id)

/-- One iteration of the `process_query` task loop on the current task `t`:
set it running, build the enhanced input, record it as `actual_input`, invoke
the responder, and finish `completed` on success or `failed` (with
`"Task failed: " + str(e)`) when an exception is caught. -/
def execTaskStep (exec : PTask → String → Except String String)
    (done : List TaskState) (t : PTask) (pending : List TaskState) : TaskState :=
  match exec t (stepInput done t pending) with
  | Except.ok r =>
    { runningState t with
      status := "completed"
      result := r
      actual_input := some (stepInput done t pending) }
  | Except.error e =>
    { runningState t with
      status := "failed"
      result := "Task failed: " ++ e
      actual_input := some (stepInput done t pending) }

/-- The sequential task loop: `done` holds the already-executed task states,
the remaining plan tasks are still pending. -/
def runTasksAux (exec : PTask → String → Except String String)
    (done : List TaskState) : List PTask → List TaskState
  | [] => done
  | t :: rest =>
    runTasksAux exec (done ++ [execTaskStep exec done t (rest.map initState)]) rest

/-- Execute a (deduplicated) task list in order, as `process_query` does. -/
def runTasks (exec : PTask → String → Except String String)
    (tasks : List PTask) : List TaskState :=
  runTasksAux exec [] tasks

/-- Python dict insertion: an existing key keeps its position but takes the
new value, a new key is appended. -/
def pyDictInsert (m : List PTask) (t : PTask) : List PTask :=
  if m.any (fun u => u.id = t.id) then
    m.map (fun u => if u.id = t.id then t else u)
  else m ++ [t]

/-- `{task.id: task for task in plan.tasks}` — ordered dict values. -/
def pyDictTasks (ts : List PTask) : List PTask :=
  ts.foldl pyDictInsert []

/-! ## Free-text responder (`agents/llm_agent.py`)

`LLMAgent.search` makes up to three API calls: the primary (`responses`) call,
a fallback chat call when the primary returned a blank/absent text, and a
fallback chat call inside the `except` handler when an earlier call raised.
Each is an oracle from the prompt to `Except String (Option String)`
(`none` = no text item found / `content is None`). -/

/-- Outcomes of the three possible API calls, the configured model name and
the formatted `datetime.now()` timestamp. -/
structure LLMOracles where
  primary : String → Except String (Option String)
  fbEmpty : String → Except String (Option String)
  fbExc : String → Except String (Option String)
  modelName : String
  now : String

/-- Python `if not result or result.strip() == ""` on an optional text. -/
def optBlank (r : Option String) : Bool :=
  match r with
  | none => true
  | some s => s = "" ∨ pyStrip s = ""

/-- The research prompt of `LLMAgent.search` (instruction text abbreviated;
it only feeds the oracles). -/
def researchPromptOf (query context : String) : String :=
  "You are an expert research agent with access to comprehensive knowledge.\n" ++
  "Your task is to provide detailed, accurate, and well-structured research responses.\n\n" ++
  "Research Query: " ++ query ++ "\n\n" ++
  (if context ≠ "" then "Additional Context: " ++ context else "") ++ "\n\n" ++
  "Structure your response clearly and focus on accuracy and usefulness."

/-- The `try`/`except` ladder of `LLMAgent.search` around the API calls:
returns the model used and the raw text, or the exception that escapes to
the outer handler. -/
def llmSearchInner (o : LLMOracles) (prompt : String) :
    Except String (String × Option String) :=
  match o.primary prompt with
  | Except.ok r =>
    if optBlank r then
      match o.fbEmpty prompt with
      | Except.ok r2 => Except.ok ("gpt-4o-mini", r2)
      | Except.error e1 =>
        match o.fbExc prompt with
        | Except.ok r3 => Except.ok ("gpt-4o-mini", r3)
        | Except.error e2 =>
          Except.error ("Both models failed - GPT-5: " ++ e1 ++ ", GPT-4: " ++ e2)
    else Except.ok (o.modelName, r)
  | Except.error e0 =>
    match o.fbExc prompt with
    | Except.ok r3 => Except.ok ("gpt-4o-mini", r3)
    | Except.error e2 =>
      Except.error ("Both models failed - GPT-5: " ++ e0 ++ ", GPT-4: " ++ e2)

/-- `LLMAgent.search(query)` (the Engine always calls it with empty
`context`): total — every failure is caught and becomes the
`"LLM Agent Error: " + str(e)` result string. -/
def llmSearch (o : LLMOracles) (query : String) : String :=
  match llmSearchInner o (researchPromptOf query "") with
  | Except.error e => "LLM Agent Error: " ++ e
  | Except.ok (modelUsed, r) =>
    let text := if optBlank r then "Both gpt5 and gpt4 returned empty responses"
                else r.getD ""
    "**LLM Research Results** (Generated: " ++ o.now ++ ")\n\n" ++ text ++
      "\n\n---\n*Research provided by " ++ modelUsed ++ "*\n"

/-! ## Responder dispatch (`_execute_task`, lines 216-241) -/

/-- The keys of `self.agents_map` fixed in `_setup_agents`. -/
def agentsMapIds : List String := ["llm_agent", "neo4j_agent"]

/-- The dispatch part of `_execute_task`: registry lookup (raising
`ValueError(f"Agent {task.agent} not found")` on a miss), then the per-agent
branch.  The `neo4j_agent` branch extracts the last message content from the
react agent (`none` = empty message list → `"No response from Neo4j agent"`);
the `graph_data` attachment is a side channel not modelled here. -/
def dispatchAgent (llmO : LLMOracles)
    (neoO : String → Except String (Option String))
    (t : PTask) (inp : String) : Except String String :=
  if ¬ agentsMapIds.contains t.agent then
    Except.error ("Agent " ++ t.agent ++ " not found")
  else if t.agent = "llm_agent" then
    Except.ok (llmSearch llmO inp)
  else if t.agent = "neo4j_agent" then
    match neoO inp with
    | Except.error e => Except.error e
    | Except.ok none => Except.ok "No response from Neo4j agent"
    | Except.ok (some content) => Except.ok content
  else Except.error ("Unknown agent type: " ++ t.agent)

/-! ## Synthesis (`SupervisorAgent.synthesize_results`) -/

/-- The fixed apology returned when no task completed. -/
def apologyMsg : String :=
  "I apologize, but I wasn" ++ apostrophe ++
    "t able to complete any tasks to answer your query."

/-- One synthesis line, `f"**{task.agent.replace('_', ' ').title()}**: {task.result}"`. -/
def taskResultLine (t : TaskState) : String :=
  "**" ++ displayAgent t.agent ++ "**: " ++ t.result

/-- The synthesis prompt (instruction text abbreviated; it only feeds the
oracle), embedding the completed tasks' lines joined by `chr(10)`. -/
def synthesisPromptOf (completed : List TaskState) (query : String) : String :=
  "You are a synthesis expert. Combine the following task results into a " ++
  "comprehensive, well-structured answer to the original user query.\n\n" ++
  "Original Query: \"" ++ query ++ "\"\n\nTask Results:\n" ++
  String.intercalate "\n" (completed.map taskResultLine) ++
  "\n\nProvide a complete, well-formatted response:"

/-- `synthesize_results(tasks, original_query)`: keep only completed tasks;
apologize when none; otherwise ask the completion oracle, falling back to the
`"**<Agent>**: <result>"` concatenation when the call raises. -/
def synthesizeResults (tasks : List TaskState) (query : String)
    (oracle : String → Except String String) : String :=
  let completed := tasks.filter (fun t => t.status = "completed")
  if completed.isEmpty then apologyMsg
  else
    match oracle (synthesisPromptOf completed query) with
    | Except.ok r => pyStrip r
    | Except.error _ =>
      String.intercalate "\n\n" (completed.map taskResultLine)

/-! ## Response assembly (`_convert_tasks_to_agent_tasks`, `process_query`) -/

/-- Projection of `models.AgentTask` onto the modelled fields (the
epoch-millisecond `startTime`/`endTime` and the `graphData` attachment are
wall-clock/side-channel data outside the embedding). -/
structure AgentTaskOut where
  id : String
  agentId : String
  agentName : String
  agentColor : String
  task : String
  status : String
  result : Option String
  error : Option String
  progress : Option Nat
  input : Option String
deriving Repr, DecidableEq

/-- `_get_agent_color`: the live registry's color, else a fixed fallback map. -/
def getAgentColor (cfgs : List AgentCfg) (name : String) : String :=
  match cfgs.find? (fun a => a.id = name) with
  | some a => a.color
  | none =>
    if name = "llm_agent" then "#3F51B5"
    else if name = "neo4j_agent" then "#F44336"
    else if name = "supervisor" then "#607D8B"
    else "#757575"

/-- The `plan_details` text of `_convert_tasks_to_agent_tasks` (the template
keeps the literal seven-tab indentation of the source). -/
def planDetailsOf (plan : AgentPlan) : String :=
  ("**Query Analysis**: " ++ plan.analysis ++
    "\n\t\t\t\t\t\t\t**Strategy**: " ++ plan.strategy ++
    "\n\t\t\t\t\t\t\t**Task Breakdown**:") ++
  String.join ((List.range plan.tasks.length).map (fun i =>
    match plan.tasks[i]? with
    | some t => "\n" ++ toString (i + 1) ++ ". " ++ displayAgent t.agent ++ ": " ++ t.description
    | none => ""))

/-- The status-string mapping of `_convert_tasks_to_agent_tasks`
(`AgentStatus` is a str-valued enum). -/
def mapStatus (s : String) : String :=
  if s = "running" then "running"
  else if s = "completed" then "completed"
  else if s = "failed" then "failed"
  else "pending"

/-- The per-task entry built by `_convert_tasks_to_agent_tasks`. -/
def convertTaskEntry (cfgs : List AgentCfg) (t : TaskState) : AgentTaskOut :=
  { id := t.id
    agentId := t.agent
    agentName := displayAgent t.agent
    agentColor := getAgentColor cfgs t.agent
    task := t.description
    status := mapStatus t.status
    result := if t.status = "completed" then some t.result else none
    error := if t.status = "failed" then some t.result else none
    progress := some (if t.status = "completed" then 100 else if t.status = "running" then 50 else 0)
    input := some (t.actual_input.getD t.description) }

/-- `_convert_tasks_to_agent_tasks`: the synthetic planner entry followed by
one entry per executed task. -/
def convertTasks (cfgs : List AgentCfg) (planningCompleted : Bool)
    (sts : List TaskState) (plan : AgentPlan) : List AgentTaskOut :=
  { id := "supervisor_plan"
    agentId := "planner"
    agentName := "Planner"
    agentColor := "#607D8B"
    task := "Planning and coordinating task execution"
    status := if planningCompleted then "completed" else "running"
    result := some (if planningCompleted then planDetailsOf plan else "")
    error := none
    progress := none
    input := some plan.original_query } :: sts.map (convertTaskEntry cfgs)

/-- Projection of `models.MultiAgentResponse` onto the modelled fields
(`processing_time`/`totalTime` are wall-clock values, `src` is unused by
`process_query`). -/
structure MAResponse where
  query : String
  response : String
  agents_used : List String
  synthesis_applied : Bool
  agentTasks : List AgentTaskOut
  sessionTitle : Option String
deriving Repr, DecidableEq

/-- `MultiAgentOrchestrator.process_query`.  The plan step is
`planReply : Except String (Except String PlanData)`: the outer `Except` is
an exception escaping around `create_plan` (the `FatalPlanningException`
path, e.g. from the untyped prompt-building code), the inner value is the
completion/parse outcome that `create_plan` handles internally.  Everything
after a successful plan is total, so the outer `except` branch of
`process_query` is exactly the outer error here. -/
def processQuery (query : String) (cfgs : List AgentCfg)
    (planReply : Except String (Except String PlanData))
    (llmO : LLMOracles) (neoO : String → Except String (Option String))
    (synthO : String → Except String String)
    (titleO : Except String String) : MAResponse :=
  match planReply with
  | Except.error e =>
    { query := query
      response := "I apologize, but I encountered an error while processing your request: " ++ e
      agents_used := []
      synthesis_applied := false
      agentTasks := []
      sessionTitle := none }
  | Except.ok reply =>
    let plan := createPlan query cfgs reply
    let out := runTasks (dispatchAgent llmO neoO) (pyDictTasks plan.tasks)
    { query := query
      response := synthesizeResults out query synthO
      agents_used := out.map (fun t => t.agent)
      synthesis_applied := true
      agentTasks := convertTasks cfgs true out plan
      sessionTitle := some (generateTitle query titleO) }

/-! ## Provenance recorder: agents and workflow
(`audit/neo4j_audit.py`, `_create_agents_and_workflow`)

The recorder receives `agent_tasks` as a list of dicts (built in `main.py`
with keys `agent`, `type`, `task`, `input`, `result`, ...), read with
`.get(key, default)`.  The Cypher writes are modelled as structured lists,
one list per node/edge kind, in emission order. -/

/-- One entry of `agent_tasks` (fields read with `.get`; `none` = key
missing). -/
structure ATask where
  agent : Option String
  type : Option String
  task : Option String
  result : Option String
  input : Option String
deriving Repr, DecidableEq

/-- `task.get('agent', 'Unknown')`. -/
def agentNameOf (t : ATask) : String := t.agent.getD "Unknown"

/-- `task.get('type', agent_name)`. -/
def typeOf (t : ATask) : String := t.type.getD (agentNameOf t)

/-- `task.get('task', '')`, `task.get('result', '')`, `task.get('input', '')`. -/
def taskDescOf (t : ATask) : String := t.task.getD ""

def taskResultOf (t : ATask) : String := t.result.getD ""

def taskInputOf (t : ATask) : String := t.input.getD ""

/-- `f"{agent_name.lower().replace(' ', '_')}_{question_id}"`. -/
def agentIdFor (questionId name : String) : String :=
  spaceToUnderscore (pyLower name) ++ "_" ++ questionId

/-- `f"task_{question_id}_{i}"`. -/
def taskIdOf (questionId : String) (i : Nat) : String :=
  "task_" ++ questionId ++ "_" ++ toString i

/-- `f"result_{question_id}_{i}"`. -/
def resultIdOf (questionId : String) (i : Nat) : String :=
  "result_" ++ questionId ++ "_" ++ toString i

/-- `prev_key.split('_')[0]` — scan to the first underscore. -/
def splitFirstAux (acc : List Char) : List Char → String
  | [] => String.mk acc.reverse
  | c :: rest => if c = '_' then String.mk acc.reverse else splitFirstAux (c :: acc) rest

def splitFirst (s : String) : String := splitFirstAux [] s.toList

/-- The `agents_by_type` grouping pass: ordered `(type, first agent name)`
pairs, one per distinct type (dict keyed by type, first-occurrence order). -/
def groupAux (acc : List (String × String)) (t : ATask) : List (String × String) :=
  if acc.any (fun p => p.1 = typeOf t) then acc else acc ++ [(typeOf t, agentNameOf t)]

def groupTypes (ts : List ATask) : List (String × String) :=
  ts.foldl groupAux []

/-- Agent name stored for a type in `agents_by_type` (the first task's name). -/
def groupNameFor (ts : List ATask) (ty : String) : String :=
  match (groupTypes ts).find? (fun p => p.1 = ty) with
  | some p => p.2
  | none => "Unknown"

/-- An `Agent` node write. -/
structure AgentNodeW where
  id : String
  name : String
  type : String
  task_count : Nat
deriving Repr, DecidableEq

/-- The `Agent` creation loop: one node per `agents_by_type` entry, with
`task_count = len(agent_info['tasks'])`. -/
def agentNodesOf (questionId : String) (ts : List ATask) : List AgentNodeW :=
  (groupTypes ts).map (fun p =>
    { id := agentIdFor questionId p.2, name := p.2, type := p.1,
      task_count := ts.countP (fun t => typeOf t = p.1) })

/-- Python `for i, x in enumerate(l)` (from a start index) mapped through `f`. -/
def enumMapFrom {α β : Type} (f : Nat → α → β) : Nat → List α → List β
  | _, [] => []
  | i, a :: rest => f i a :: enumMapFrom f (i + 1) rest

/-- `agent_results`: handle `f"{agent_name}_{i}"` ↦ `result_id`, one entry
per task in order (indices make the keys unique). -/
def agentResultsOf (questionId : String) (ts : List ATask) : List (String × String) :=
  enumMapFrom (fun i t =>
    (agentNameOf t ++ "_" ++ toString i, resultIdOf questionId i)) 0 ts

/-- The `Task` node writes (id, description, input, order). -/
def taskNodesOf (questionId : String) (ts : List ATask) :
    List (String × String × String × Nat) :=
  enumMapFrom (fun i t => (taskIdOf questionId i, taskDescOf t, taskInputOf t, i)) 0 ts

/-- The `Result` node writes (id, content, agent name, order). -/
def resultNodesOf (questionId : String) (ts : List ATask) :
    List (String × String × String × Nat) :=
  enumMapFrom (fun i t => (resultIdOf questionId i, taskResultOf t, agentNameOf t, i)) 0 ts

/-- `Agent -ASSIGNED-> Task` edges: the owning agent id is looked up through
`agents_by_type[agent_type]['agent_id']`. -/
def assignedOf (questionId : String) (ts : List ATask) : List (String × String) :=
  enumMapFrom (fun i t =>
    (agentIdFor questionId (groupNameFor ts (typeOf t)), taskIdOf questionId i)) 0 ts

/-- The cross-task `Agent -USED_INPUT_FROM-> Result` loop: for every task
(by index) and every entry of the fully-built `agent_results` map, emit an
edge when the handle's first `_`-component differs from the task's agent
name, the handle's result id is truthy, and the task index is positive. -/
def usedInputFromOf (questionId : String) (ts : List ATask)
    (ars : List (String × String)) : List (String × String) :=
  (enumMapFrom (fun i t => ars.filterMap (fun kr =>
    if splitFirst kr.1 ≠ agentNameOf t ∧ kr.2 ≠ "" ∧ 0 < i then
      some (agentIdFor questionId (groupNameFor ts (typeOf t)), kr.2)
    else none)) 0 ts).flatten

/-- All writes of `_create_agents_and_workflow`. -/
structure WorkflowWrites where
  agentNodes : List AgentNodeW
  useAgent : List (String × String)
  taskNodes : List (String × String × String × Nat)
  resultNodes : List (String × String × String × Nat)
  produced : List (String × String)
  assigned : List (String × String)
  usedInputFrom : List (String × String)
  agentResults : List (String × String)
deriving Repr, DecidableEq

/-- `_create_agents_and_workflow(session, question_id, orchestrator_id,
agent_tasks, timestamp)` as a pure write log. -/
def createAgentsAndWorkflow (questionId orchestratorId : String)
    (ts : List ATask) : WorkflowWrites :=
  { agentNodes := agentNodesOf questionId ts
    useAgent := (agentNodesOf questionId ts).map (fun a => (orchestratorId, a.id))
    taskNodes := taskNodesOf questionId ts
    resultNodes := resultNodesOf questionId ts
    produced := (List.range ts.length).map (fun i =>
      (taskIdOf questionId i, resultIdOf questionId i))
    assigned := assignedOf questionId ts
    usedInputFrom := usedInputFromOf questionId ts (agentResultsOf questionId ts)
    agentResults := agentResultsOf questionId ts }

/-! ## Provenance recorder: retrieved graph data (`_create_graph_data`) -/

/-- A retrieved-node dict as the recorder reads it: optional `elementId` and
`id` keys, a label list, and a property map whose values are serialized
strings (`none` = Python `None`). -/
structure RNode where
  elementId : Option String
  nodeId : Option String
  labels : List String
  properties : List (String × Option String)
deriving Repr, DecidableEq

/-- `node_data.get('elementId') or node_data.get('id', f'unknown_{i}')`. -/
def primaryElemId (i : Nat) (nd : RNode) : String :=
  if pyTruthy nd.elementId then nd.elementId.getD ""
  else nd.nodeId.getD ("unknown_" ++ toString i)

/-- Label escaping: back-quote a label containing a space. -/
def escapeLabel (l : String) : String :=
  if l.toList.contains ' ' then "`" ++ l ++ "`" else l

/-- `':'.join(escaped_labels) if escaped_labels else 'Entity'`. -/
def labelsJoin (labels : List String) : String :=
  if labels.isEmpty then "Entity"
  else String.intercalate ":" (labels.map escapeLabel)

/-- `prop_key.replace('-', '_').replace(' ', '_')`. -/
def cleanKeyChar (c : Char) : Char :=
  if c = '-' ∨ c = ' ' then '_' else c

def cleanKey (k : String) : String := mapChars cleanKeyChar k

/-- Property keys the recorder reserves for itself. -/
def reservedKeys : List String := ["audit_id", "original_element_id", "timestamp"]

/-- `str(prop_value) if prop_value is not None else ""` on serialized values. -/
def pyStrOpt (v : Option String) : String := v.getD ""

/-- The property-parameter loop of the node `CREATE`: skip reserved keys,
clean the key, stringify the value. -/
def auditProps (props : List (String × Option String)) : List (String × String) :=
  (props.filter (fun kv => ¬ reservedKeys.contains kv.1)).map
    (fun kv => (cleanKey kv.1, pyStrOpt kv.2))

/-- One persisted audit node (the `CREATE (e:<labels> {...})` write, or the
generic `Entity` fallback when that creation raised). -/
structure AuditEntityWrite where
  audit_id : String
  element_id : String
  labelsStr : String
  props : List (String × String)
  fallback : Bool
deriving Repr, DecidableEq

/-- The labeled creation for one primary node. -/
def materializeLabeled (nodeId elemId timestamp : String) (nd : RNode) : AuditEntityWrite :=
  { audit_id := nodeId
    element_id := elemId
    labelsStr := labelsJoin nd.labels
    props := [("audit_id", nodeId), ("original_element_id", elemId), ("timestamp", timestamp)]
      ++ auditProps nd.properties
    fallback := false }

/-- The generic `Entity` fallback creation (original labels kept as a string
attribute). -/
def materializeFallback (nodeId elemId timestamp : String) (nd : RNode) : AuditEntityWrite :=
  { audit_id := nodeId
    element_id := elemId
    labelsStr := "Entity"
    props := [("audit_id", nodeId), ("original_element_id", elemId), ("timestamp", timestamp),
      ("original_labels", toString (repr nd.labels))]
    fallback := true }

/-- Association-list with Python dict semantics: assignment overwrites. -/
def mapInsert (m : List (String × String)) (k v : String) : List (String × String) :=
  if m.any (fun p => p.1 = k) then m.map (fun p => if p.1 = k then (k, v) else p)
  else m ++ [(k, v)]

def mapMem (m : List (String × String)) (k : String) : Bool :=
  m.any (fun p => p.1 = k)

/-- The primary retrieved-node loop of `_create_graph_data`
(lines 383-445): every list entry is materialized under
`f"entity_{graphrag_id}_{i}"` (via the labeled creation, or the `Entity`
fallback when it raises — `createOk i` is the success oracle), linked
`RETRIEVED_ENTITY`, and `entity_map[node_element_id] = node_id` is assigned
unconditionally afterwards. -/
def processPrimaryAux (graphragId timestamp : String) (createOk : Nat → Bool) :
    Nat → List (String × String) → List RNode →
    List AuditEntityWrite × List (String × String)
  | _, m, [] => ([], m)
  | i, m, nd :: rest =>
    let eid := primaryElemId i nd
    let nid := "entity_" ++ graphragId ++ "_" ++ toString i
    let w := if createOk i then materializeLabeled nid eid timestamp nd
             else materializeFallback nid eid timestamp nd
    let res := processPrimaryAux graphragId timestamp createOk (i + 1) (mapInsert m eid nid) rest
    (w :: res.1, res.2)

def processPrimaryNodes (graphragId timestamp : String) (createOk : Nat → Bool)
    (nodes : List RNode) : List AuditEntityWrite × List (String × String) :=
  processPrimaryAux graphragId timestamp createOk 0 [] nodes

/-- `node_data.get('elementId') or node_data.get('id')` in the
supplementary-list loop (no default). -/
def additionalElemId (nd : RNode) : Option String :=
  if pyTruthy nd.elementId then nd.elementId else nd.nodeId

/-- The supplementary-list loop (lines 452-498) for one of `entity_nodes`,
`chunk_nodes`, `document_nodes`: `elementId or id` must be truthy and **not**
already in `entity_map`; only then is an `additional_...` node created,
linked `RETRIEVED_ADDITIONAL`, and entered in the map (a creation failure is
swallowed and leaves the map untouched). -/
def processAdditionalAux (graphragId listName timestamp : String) (createOk : Nat → Bool) :
    Nat → List (String × String) → List RNode →
    List AuditEntityWrite × List (String × String)
  | _, m, [] => ([], m)
  | i, m, nd :: rest =>
    if pyTruthy (additionalElemId nd) ∧ ¬ mapMem m ((additionalElemId nd).getD "") then
      if createOk i then
        (materializeLabeled
            ("additional_" ++ listName ++ "_" ++ graphragId ++ "_" ++ toString i)
            ((additionalElemId nd).getD "") timestamp nd ::
          (processAdditionalAux graphragId listName timestamp createOk (i + 1)
            (mapInsert m ((additionalElemId nd).getD "")
              ("additional_" ++ listName ++ "_" ++ graphragId ++ "_" ++ toString i)) rest).1,
         (processAdditionalAux graphragId listName timestamp createOk (i + 1)
            (mapInsert m ((additionalElemId nd).getD "")
              ("additional_" ++ listName ++ "_" ++ graphragId ++ "_" ++ toString i)) rest).2)
      else processAdditionalAux graphragId listName timestamp createOk (i + 1) m rest
    else processAdditionalAux graphragId listName timestamp createOk (i + 1) m rest

def processAdditionalList (graphragId listName timestamp : String) (createOk : Nat → Bool)
    (m : List (String × String)) (nodes : List RNode) :
    List AuditEntityWrite × List (String × String) :=
  processAdditionalAux graphragId listName timestamp createOk 0 m nodes

/-! ## Retrieval post-processing (`agents/neo4j_agent.py`,
`_get_retrieved_graph_data`) -/

/-- A raw node coming back from the driver (element id, labels, serialized
properties). -/
structure RawNode where
  elementId : String
  labels : List String
  properties : List (String × Option String)
deriving Repr, DecidableEq

/-- `if 'embedding' in node_props: node_props['embedding'] = None`. -/
def nullEmbedding (props : List (String × Option String)) : List (String × Option String) :=
  props.map (fun kv => if kv.1 = "embedding" then (kv.1, none) else kv)

/-- The retrieved-node dict built by `_get_retrieved_graph_data` (key `id`,
not `elementId`; embedding nulled). -/
def retrievalNodeOf (raw : RawNode) : RNode :=
  { elementId := none, nodeId := some raw.elementId, labels := raw.labels,
    properties := nullEmbedding raw.properties }

/-- The record/key scan of `_get_retrieved_graph_data`: node slots may be
missing (`none`); an element id already in `processed_nodes` is skipped. -/
def collectRetrievedNodes : List (Option RawNode) → List String → List RNode
  | [], _ => []
  | none :: rest, seen => collectRetrievedNodes rest seen
  | some r :: rest, seen =>
    if seen.contains r.elementId then collectRetrievedNodes rest seen
    else retrievalNodeOf r :: collectRetrievedNodes rest (r.elementId :: seen)

/-! ## Engine lemmas -/

theorem runTasksAux_length (exec : PTask → String → Except String String) :
    ∀ (todo : List PTask) (done : List TaskState),
    (runTasksAux exec done todo).length = done.length + todo.length := by
  intro todo
  induction todo with
  | nil => intro done; simp [runTasksAux]
  | cons t rest ih =>
    intro done
    rw [runTasksAux, ih]
    simp
    omega

theorem runTasksAux_prefix (exec : PTask → String → Except String String) :
    ∀ (todo : List PTask) (done : List TaskState),
    ∃ tl, runTasksAux exec done todo = done ++ tl := by
  intro todo
  induction todo with
  | nil => intro done; exact ⟨[], by simp [runTasksAux]⟩
  | cons t rest ih =>
    intro done
    obtain ⟨tl, h⟩ := ih (done ++ [execTaskStep exec done t (rest.map initState)])
    refine ⟨execTaskStep exec done t (rest.map initState) :: tl, ?_⟩
    rw [runTasksAux, h]
    simp

/-- Step characterization: the entry at position `done.length + j` of the run
is the step applied to the prefix of the output before it. -/
theorem runTasksAux_getElem (exec : PTask → String → Except String String) :
    ∀ (todo : List PTask) (done : List TaskState) (j : Nat) (t : PTask),
    todo[j]? = some t →
    (runTasksAux exec done todo)[done.length + j]? =
      some (execTaskStep exec ((runTasksAux exec done todo).take (done.length + j)) t
        ((todo.drop (j + 1)).map initState)) := by
  intro todo
  induction todo with
  | nil => intro done j t ht; simp at ht
  | cons t0 rest ih =>
    intro done j t ht
    cases j with
    | zero =>
      simp only [List.getElem?_cons_zero, Option.some.injEq] at ht
      subst ht
      rw [runTasksAux]
      obtain ⟨tl, htl⟩ :=
        runTasksAux_prefix exec rest (done ++ [execTaskStep exec done t0 (rest.map initState)])
      rw [htl, List.append_assoc, List.singleton_append]
      have hget : (done ++ execTaskStep exec done t0 (rest.map initState) :: tl)[done.length + 0]? =
          some (execTaskStep exec done t0 (rest.map initState)) := by
        rw [List.getElem?_append_right (by omega)]
        simp
      rw [hget]
      have htake : (done ++ execTaskStep exec done t0 (rest.map initState) :: tl).take
          (done.length + 0) = done := by
        simp
      rw [htake]
      simp
    | succ j =>
      simp only [List.getElem?_cons_succ] at ht
      rw [runTasksAux]
      have := ih (done ++ [execTaskStep exec done t0 (rest.map initState)]) j t ht
      have hlen : (done ++ [execTaskStep exec done t0 (rest.map initState)]).length + j =
          done.length + (j + 1) := by simp; omega
      rw [hlen] at this
      rw [this]
      simp

theorem execTaskStep_id (exec : PTask → String → Except String String)
    (done : List TaskState) (t : PTask) (pending : List TaskState) :
    (execTaskStep exec done t pending).id = t.id := by
  unfold execTaskStep
  cases exec t (stepInput done t pending) <;> rfl

theorem execTaskStep_description (exec : PTask → String → Except String String)
    (done : List TaskState) (t : PTask) (pending : List TaskState) :
    (execTaskStep exec done t pending).description = t.description := by
  unfold execTaskStep
  cases exec t (stepInput done t pending) <;> rfl

theorem execTaskStep_agent (exec : PTask → String → Except String String)
    (done : List TaskState) (t : PTask) (pending : List TaskState) :
    (execTaskStep exec done t pending).agent = t.agent := by
  unfold execTaskStep
  cases exec t (stepInput done t pending) <;> rfl

theorem execTaskStep_actual_input (exec : PTask → String → Except String String)
    (done : List TaskState) (t : PTask) (pending : List TaskState) :
    (execTaskStep exec done t pending).actual_input = some (stepInput done t pending) := by
  unfold execTaskStep
  cases exec t (stepInput done t pending) <;> rfl

theorem execTaskStep_terminal (exec : PTask → String → Except String String)
    (done : List TaskState) (t : PTask) (pending : List TaskState) :
    (execTaskStep exec done t pending).status = "completed" ∨
      (execTaskStep exec done t pending).status = "failed" := by
  unfold execTaskStep
  cases exec t (stepInput done t pending)
  · exact Or.inr rfl
  · exact Or.inl rfl

theorem execTaskStep_error (exec : PTask → String → Except String String)
    (done : List TaskState) (t : PTask) (pending : List TaskState) (e : String)
    (h : exec t (stepInput done t pending) = Except.error e) :
    (execTaskStep exec done t pending).status = "failed" ∧
      (execTaskStep exec done t pending).result = "Task failed: " ++ e := by
  unfold execTaskStep
  rw [h]
  exact ⟨rfl, rfl⟩

theorem execTaskStep_ok (exec : PTask → String → Except String String)
    (done : List TaskState) (t : PTask) (pending : List TaskState) (r : String)
    (h : exec t (stepInput done t pending) = Except.ok r) :
    (execTaskStep exec done t pending).status = "completed" ∧
      (execTaskStep exec done t pending).result = r := by
  unfold execTaskStep
  rw [h]
  exact ⟨rfl, rfl⟩

theorem contextFrom_append (a b : List TaskState) (sid : String) :
    contextFrom (a ++ b) sid = contextFrom a sid ++ contextFrom b sid := by
  induction a with
  | nil => simp [contextFrom, String.empty_append]
  | cons t rest ih =>
    rw [List.cons_append, contextFrom, contextFrom, ih, String.append_assoc]

theorem contextFrom_of_not_completed (l : List TaskState) (sid : String)
    (h : ∀ u ∈ l, u.status ≠ "completed") : contextFrom l sid = "" := by
  induction l with
  | nil => rfl
  | cons t rest ih =>
    rw [contextFrom, if_neg, ih (fun u hu => h u (List.mem_cons_of_mem t hu))]
    · exact String.empty_append ""
    · intro hc
      exact h t (List.mem_cons_self t rest) hc.1

theorem contextFrom_eq_block (l : List TaskState) (sid : String)
    (h : ∀ u ∈ l, u.id ≠ sid) :
    contextFrom l sid = prevResultsBlock (l.filter (fun u => u.status = "completed")) := by
  induction l with
  | nil => rfl
  | cons t rest ih =>
    have hrest := ih (fun u hu => h u (List.mem_cons_of_mem t hu))
    by_cases hs : t.status = "completed"
    · rw [contextFrom, if_pos ⟨hs, h t (List.mem_cons_self t rest)⟩]
      rw [List.filter_cons_of_pos (by simp [hs]), prevResultsBlock, hrest]
    · rw [contextFrom, if_neg (fun hc => hs hc.1)]
      rw [List.filter_cons_of_neg (by simp [hs]), hrest, String.empty_append]

/-- The ids of the run output are the ids of the input tasks, in order. -/
theorem runTasksAux_map_id (exec : PTask → String → Except String String) :
    ∀ (todo : List PTask) (done : List TaskState),
    (runTasksAux exec done todo).map TaskState.id =
      done.map TaskState.id ++ todo.map PTask.id := by
  intro todo
  induction todo with
  | nil => intro done; simp [runTasksAux]
  | cons t rest ih =>
    intro done
    rw [runTasksAux, ih]
    simp [execTaskStep_id]

theorem pyDictInsert_map_id_of_mem (m : List PTask) (t : PTask)
    (h : m.any (fun u => u.id = t.id)) :
    (pyDictInsert m t).map PTask.id = m.map PTask.id := by
  rw [pyDictInsert, if_pos h, List.map_map]
  apply List.map_congr_left
  intro u _
  by_cases h' : u.id = t.id
  · simp [h']
  · simp [h']

theorem pyDictInsert_nodup (m : List PTask) (t : PTask)
    (h : (m.map PTask.id).Nodup) : ((pyDictInsert m t).map PTask.id).Nodup := by
  by_cases hm : m.any (fun u => u.id = t.id)
  · rw [pyDictInsert_map_id_of_mem m t hm]
    exact h
  · rw [pyDictInsert, if_neg hm, List.map_append]
    simp only [List.map_cons, List.map_nil]
    rw [List.nodup_append]
    refine ⟨h, List.nodup_singleton _, ?_⟩
    intro x hx hx'
    simp only [List.mem_singleton] at hx'
    subst hx'
    obtain ⟨u, hu, hid⟩ := List.mem_map.mp hx
    exact hm (List.any_eq_true.mpr ⟨u, hu, by simp [hid]⟩)

theorem pyDictTasks_nodup (ts : List PTask) :
    ((pyDictTasks ts).map PTask.id).Nodup := by
  have main : ∀ (l : List PTask) (m : List PTask), (m.map PTask.id).Nodup →
      ((l.foldl pyDictInsert m).map PTask.id).Nodup := by
    intro l
    induction l with
    | nil => intro m hm; exact hm
    | cons t rest ih =>
      intro m hm
      exact ih (pyDictInsert m t) (pyDictInsert_nodup m t hm)
  exact main ts [] (by simp)

theorem nodup_not_mem_take {α : Type} (l : List α) (hn : l.Nodup) (j : Nat) (x : α)
    (h : l[j]? = some x) : x ∉ l.take j := by
  intro hx
  obtain ⟨i, hi⟩ := List.mem_iff_getElem?.mp hx
  have hilt : i < j := by
    by_contra hge
    have hnone : (l.take j)[i]? = none := by
      apply List.getElem?_eq_none
      have := List.length_take j l
      omega
    rw [hnone] at hi
    exact Option.noConfusion hi
  have hi' : l[i]? = some x := by
    rw [← List.getElem?_take_of_lt hilt]
    exact hi
  obtain ⟨hlt, -⟩ := List.getElem?_eq_some.mp hi'
  have : i = j := List.getElem?_inj hlt hn (by rw [hi', h])
  omega

theorem enhanceInput_prefix (d c : String) : ∃ s, enhanceInput d c = d ++ s := by
  by_cases h : c = ""
  · exact ⟨"", by rw [enhanceInput, if_pos h, String.append_empty]⟩
  · exact ⟨"\n\nContext from previous tasks:" ++ c, by
      rw [enhanceInput, if_neg h, String.append_assoc]⟩

/-- Claim C2: the recorded `actual_input` of the `j`-th task executed by the
Engine is the task's original description followed by the context block built
from exactly the tasks completed strictly before it — failed tasks and later
tasks contribute nothing — and in particular the original description is a
prefix of `actual_input`. -/
theorem claim_C2 (exec : PTask → String → Except String String) (ts : List PTask)
    (j : Nat) (t : PTask) (st : TaskState)
    (ht : (pyDictTasks ts)[j]? = some t)
    (hst : (runTasks exec (pyDictTasks ts))[j]? = some st) :
    st.actual_input = some (enhanceInput t.description
        (prevResultsBlock (((runTasks exec (pyDictTasks ts)).take j).filter
          (fun u => u.status = "completed")))) ∧
    ∃ suffix, st.actual_input = some (t.description ++ suffix) := by
  have hchar := runTasksAux_getElem exec (pyDictTasks ts) [] j t ht
  simp only [List.length_nil, Nat.zero_add] at hchar
  rw [runTasks] at hst
  rw [hchar, Option.some.injEq] at hst
  have hai := execTaskStep_actual_input exec
    ((runTasksAux exec [] (pyDictTasks ts)).take j) t
    (((pyDictTasks ts).drop (j + 1)).map initState)
  rw [hst] at hai
  have h2 : contextFrom (runningState t ::
      ((pyDictTasks ts).drop (j + 1)).map initState) t.id = "" := by
    apply contextFrom_of_not_completed
    intro u hu
    rcases List.mem_cons.mp hu with h | h
    · subst h
      rw [show (runningState t).status = "running" from rfl]
      decide
    · obtain ⟨x, -, rfl⟩ := List.mem_map.mp h
      rw [show (initState x).status = "pending" from rfl]
      decide
  have hids : (runTasksAux exec [] (pyDictTasks ts)).map TaskState.id =
      (pyDictTasks ts).map PTask.id := by
    have := runTasksAux_map_id exec (pyDictTasks ts) []
    simpa using this
  have hidneq : ∀ u ∈ (runTasksAux exec [] (pyDictTasks ts)).take j, u.id ≠ t.id := by
    intro u hu heq
    have hnodup : ((runTasksAux exec [] (pyDictTasks ts)).map TaskState.id).Nodup := by
      rw [hids]; exact pyDictTasks_nodup ts
    have hjid : ((runTasksAux exec [] (pyDictTasks ts)).map TaskState.id)[j]? = some t.id := by
      rw [hids, List.getElem?_map, ht]; rfl
    have hnm := nodup_not_mem_take _ hnodup j t.id hjid
    apply hnm
    rw [← List.map_take]
    rw [← heq]
    exact List.mem_map_of_mem _ hu
  have h3 := contextFrom_eq_block ((runTasksAux exec [] (pyDictTasks ts)).take j) t.id hidneq
  rw [stepInput, contextFrom_append, h2, String.append_empty, h3] at hai
  refine ⟨?_, ?_⟩
  · rw [runTasks]
    exact hai
  · obtain ⟨s, hs⟩ := enhanceInput_prefix t.description
      (prevResultsBlock (((runTasksAux exec [] (pyDictTasks ts)).take j).filter
        (fun u => u.status = "completed")))
    exact ⟨s, by rw [hai, hs]⟩

/-- Concrete responder oracle for the C2 witness: the second task raises. -/
def c2exec : PTask → String → Except String String :=
  fun t _ => if t.id = "task_b" then Except.error "boom" else Except.ok ("R" ++ t.id)

/-- Concrete plan for the C2 witness. -/
def c2tasks : List PTask :=
  [ { id := "task_a", description := "da", agent := "llm_agent" },
    { id := "task_b", description := "db", agent := "neo4j_agent" },
    { id := "task_c", description := "dc", agent := "llm_agent" } ]

/-- Witness for C2 at the third task of a concrete run whose second task
failed: the recorded input extends `"dc"` with only the first task's result. -/
theorem claim_C2_witness :
    (⟨"task_c", "dc", "llm_agent", "completed", "Rtask_c",
        some ("dc\n\nContext from previous tasks:\n\nPrevious result from llm_agent: Rtask_a")⟩ :
      TaskState).actual_input = some (enhanceInput "dc"
        (prevResultsBlock (((runTasks c2exec (pyDictTasks c2tasks)).take 2).filter
          (fun u => u.status = "completed")))) ∧
    ∃ suffix, (⟨"task_c", "dc", "llm_agent", "completed", "Rtask_c",
        some ("dc\n\nContext from previous tasks:\n\nPrevious result from llm_agent: Rtask_a")⟩ :
      TaskState).actual_input = some ("dc" ++ suffix) :=
  claim_C2 c2exec c2tasks 2 { id := "task_c", description := "dc", agent := "llm_agent" }
    ⟨"task_c", "dc", "llm_agent", "completed", "Rtask_c",
      some ("dc\n\nContext from previous tasks:\n\nPrevious result from llm_agent: Rtask_a")⟩
    (by decide) (by decide)


/-! ## Claims C1, C3, C4, C5, C10 -/

/-- Claim C1: `process_query` always returns a well-formed response bundle
and never raises; when an exception (text `e`) escapes processing — the plan
creation path — the returned bundle embeds the error text in its answer,
lists no responders, carries no task detail entries and has
`synthesis_applied = false`.  (Totality of `processQuery` is the
never-raises part; this theorem pins down the degraded bundle.) -/
theorem claim_C1 (query : String) (cfgs : List AgentCfg) (llmO : LLMOracles)
    (neoO : String → Except String (Option String))
    (synthO : String → Except String String) (titleO : Except String String)
    (e : String) :
    processQuery query cfgs (Except.error e) llmO neoO synthO titleO =
      { query := query
        response := "I apologize, but I encountered an error while processing your request: " ++ e
        agents_used := []
        synthesis_applied := false
        agentTasks := []
        sessionTitle := none } := rfl

/-- Counterexample to claim C3: the reply `{}` — valid JSON whose shape is
not the documented `{analysis, strategy, tasks:[...]}` — does **not** produce
the single-task fallback plan: `create_plan` returns a plan with zero tasks,
because `plan_data.get("tasks", [])` tolerates the missing key. -/
theorem claim_C3_cex :
    ¬ ((createPlan "q" defaultAgents
        (Except.ok { analysis := none, strategy := none, tasks := [] })).tasks.length = 1) := by
  decide

theorem fallbackAgentOf_cases (ids : List String) :
    fallbackAgentOf ids = "llm_agent" ∨
      ∃ x rest, ids = x :: rest ∧ fallbackAgentOf ids = x := by
  cases ids with
  | nil => left; decide
  | cons x rest =>
    by_cases hc : (x :: rest).contains "llm_agent"
    · left; rw [fallbackAgentOf.eq_def, if_pos hc]
    · right
      exact ⟨x, rest, rfl, by rw [fallbackAgentOf.eq_def, if_neg hc]⟩

/-- Claim C3 (amended): whenever the planning reply makes the parse pipeline
raise (unparsable JSON, or a task entry missing a required key), `create_plan`
returns — without raising — the fallback plan with exactly one task whose
description is `"Handle query: " ++ query`, routed to the designated default
responder (`llm_agent`) or else the first enabled one; but a reply that
parses to an object with no usable `tasks` entry yields a plan with zero
tasks instead of the fallback. -/
theorem claim_C3_amended (query : String) (cfgs : List AgentCfg)
    (reply : Except String PlanData) (e : String)
    (h : planParse reply = Except.error e) :
    createPlan query cfgs reply =
      { original_query := query
        analysis := "Fallback analysis due to planning error"
        strategy := "Direct delegation to available agent"
        tasks := [ { id := "task_1"
                     description := "Handle query: " ++ query
                     agent := fallbackAgentOf (enabledIdsOf cfgs) } ] } ∧
    (fallbackAgentOf (enabledIdsOf cfgs) = "llm_agent" ∨
      ∃ rest, enabledIdsOf cfgs = fallbackAgentOf (enabledIdsOf cfgs) :: rest) ∧
    (∀ a s, (createPlan query cfgs
        (Except.ok { analysis := a, strategy := s, tasks := [] })).tasks = []) := by
  refine ⟨?_, ?_, ?_⟩
  · rw [createPlan, h]
  · rcases fallbackAgentOf_cases (enabledIdsOf cfgs) with h1 | ⟨x, rest, hxr, hfb⟩
    · left; exact h1
    · right; exact ⟨rest, by rw [hfb, hxr]⟩
  · intro a s; rfl

/-- Witness for C3 (amended) at a raising reply. -/
theorem claim_C3_witness :
    createPlan "what?" defaultAgents (Except.error "invalid json") =
      { original_query := "what?"
        analysis := "Fallback analysis due to planning error"
        strategy := "Direct delegation to available agent"
        tasks := [ { id := "task_1"
                     description := "Handle query: what?"
                     agent := fallbackAgentOf (enabledIdsOf defaultAgents) } ] } ∧
    (fallbackAgentOf (enabledIdsOf defaultAgents) = "llm_agent" ∨
      ∃ rest, enabledIdsOf defaultAgents = fallbackAgentOf (enabledIdsOf defaultAgents) :: rest) ∧
    (∀ a s, (createPlan "what?" defaultAgents
        (Except.ok { analysis := a, strategy := s, tasks := [] })).tasks = []) :=
  claim_C3_amended "what?" defaultAgents (Except.error "invalid json") "invalid json" rfl

/-- Claim C4: a task whose responder raises on the input it was given — in
particular a task whose agent id is missing from the responder registry, for
which the dispatch raises `"Agent ... not found"` on every input — ends
`failed` with the error text embedded in its result (`"Task failed: " ++ e`),
while the run still assigns a terminal status to every task of the plan:
one task failing never aborts the remaining tasks. -/
theorem claim_C4 (exec : PTask → String → Except String String) (ts : List PTask)
    (j : Nat) (t : PTask) (st : TaskState) (e : String)
    (ht : (pyDictTasks ts)[j]? = some t)
    (hst : (runTasks exec (pyDictTasks ts))[j]? = some st)
    (hfail : exec t (st.actual_input.getD "") = Except.error e) :
    st.status = "failed" ∧ st.result = "Task failed: " ++ e ∧
    (runTasks exec (pyDictTasks ts)).length = (pyDictTasks ts).length ∧
    (∀ (k : Nat) (stk : TaskState), (runTasks exec (pyDictTasks ts))[k]? = some stk →
      stk.status = "completed" ∨ stk.status = "failed") ∧
    (∀ (llmO : LLMOracles) (neoO : String → Except String (Option String)) (inp : String),
      ¬ agentsMapIds.contains t.agent →
      dispatchAgent llmO neoO t inp = Except.error ("Agent " ++ t.agent ++ " not found")) := by
  have hchar := runTasksAux_getElem exec (pyDictTasks ts) [] j t ht
  simp only [List.length_nil, Nat.zero_add] at hchar
  rw [runTasks] at hst
  rw [hchar, Option.some.injEq] at hst
  have hai := execTaskStep_actual_input exec
    ((runTasksAux exec [] (pyDictTasks ts)).take j) t
    (((pyDictTasks ts).drop (j + 1)).map initState)
  rw [hst] at hai
  rw [hai] at hfail
  simp only [Option.getD_some] at hfail
  have herr := execTaskStep_error exec
    ((runTasksAux exec [] (pyDictTasks ts)).take j) t
    (((pyDictTasks ts).drop (j + 1)).map initState) e hfail
  refine ⟨by rw [← hst]; exact herr.1, by rw [← hst]; exact herr.2, ?_, ?_, ?_⟩
  · rw [runTasks]
    have := runTasksAux_length exec (pyDictTasks ts) []
    simpa using this
  · intro k stk hstk
    rw [runTasks] at hstk
    have hk : k < (runTasksAux exec [] (pyDictTasks ts)).length := by
      by_contra hge
      rw [List.getElem?_eq_none (by omega)] at hstk
      exact Option.noConfusion hstk
    have hklen : k < (pyDictTasks ts).length := by
      have := runTasksAux_length exec (pyDictTasks ts) []
      simp at this
      omega
    have htk : ∃ tk, (pyDictTasks ts)[k]? = some tk :=
      ⟨(pyDictTasks ts)[k], List.getElem?_eq_getElem hklen⟩
    obtain ⟨tk, htk⟩ := htk
    have hchark := runTasksAux_getElem exec (pyDictTasks ts) [] k tk htk
    simp only [List.length_nil, Nat.zero_add] at hchark
    rw [hchark, Option.some.injEq] at hstk
    rw [← hstk]
    exact execTaskStep_terminal exec _ tk _
  · intro llmO neoO inp hmiss
    rw [dispatchAgent, if_pos hmiss]

/-- Concrete oracles for the C4 witness. -/
def c4llm : LLMOracles :=
  { primary := fun _ => Except.ok (some "L")
    fbEmpty := fun _ => Except.ok (some "L")
    fbExc := fun _ => Except.ok (some "L")
    modelName := "gpt-4o"
    now := "T" }

def c4neo : String → Except String (Option String) := fun _ => Except.ok (some "N")

/-- Concrete plan for the C4 witness: the first task names an unregistered
responder, the second routes to the free-text responder. -/
def c4tasks : List PTask :=
  [ { id := "task_1", description := "d1", agent := "bogus" },
    { id := "task_2", description := "d2", agent := "llm_agent" } ]

/-- Witness for C4: the unregistered first task fails with the raised error
text in its result, and the second task still receives a terminal status. -/
theorem claim_C4_witness :
    (⟨"task_1", "d1", "bogus", "failed", "Task failed: Agent bogus not found",
        some "d1"⟩ : TaskState).status = "failed" ∧
    (⟨"task_1", "d1", "bogus", "failed", "Task failed: Agent bogus not found",
        some "d1"⟩ : TaskState).result = "Task failed: " ++ "Agent bogus not found" ∧
    (runTasks (dispatchAgent c4llm c4neo) (pyDictTasks c4tasks)).length =
      (pyDictTasks c4tasks).length ∧
    (∀ (k : Nat) (stk : TaskState),
      (runTasks (dispatchAgent c4llm c4neo) (pyDictTasks c4tasks))[k]? = some stk →
      stk.status = "completed" ∨ stk.status = "failed") ∧
    (∀ (llmO : LLMOracles) (neoO : String → Except String (Option String)) (inp : String),
      ¬ agentsMapIds.contains (⟨"task_1", "d1", "bogus"⟩ : PTask).agent →
      dispatchAgent llmO neoO ⟨"task_1", "d1", "bogus"⟩ inp =
        Except.error ("Agent " ++ (⟨"task_1", "d1", "bogus"⟩ : PTask).agent ++ " not found")) :=
  claim_C4 (dispatchAgent c4llm c4neo) c4tasks 0 ⟨"task_1", "d1", "bogus"⟩
    ⟨"task_1", "d1", "bogus", "failed", "Task failed: Agent bogus not found", some "d1"⟩
    "Agent bogus not found" (by decide) (by decide) rfl

/-- Claim C5: `synthesize_results` depends only on the completed tasks; with
no completed task (in particular when every task failed) it returns the fixed
apology string verbatim; and when the completion call raises it returns the
`"**<Agent>**: <result>"` lines of the completed tasks joined in original
order. -/
theorem claim_C5 (tasks : List TaskState) (query : String)
    (oracle : String → Except String String) :
    synthesizeResults tasks query oracle =
      synthesizeResults (tasks.filter (fun t => t.status = "completed")) query oracle ∧
    (tasks.filter (fun t => t.status = "completed") = [] →
      synthesizeResults tasks query oracle = apologyMsg) ∧
    (∀ e, oracle (synthesisPromptOf (tasks.filter (fun t => t.status = "completed")) query) =
        Except.error e →
      tasks.filter (fun t => t.status = "completed") ≠ [] →
      synthesizeResults tasks query oracle =
        String.intercalate "\n\n"
          ((tasks.filter (fun t => t.status = "completed")).map taskResultLine)) := by
  have hff : (tasks.filter (fun t => t.status = "completed")).filter
      (fun t => t.status = "completed") = tasks.filter (fun t => t.status = "completed") :=
    List.filter_eq_self.mpr (fun a ha => (List.mem_filter.mp ha).2)
  refine ⟨?_, ?_, ?_⟩
  · rw [synthesizeResults, synthesizeResults, hff]
  · intro h
    rw [synthesizeResults, h]
    rfl
  · intro e he hne
    obtain ⟨c, cs, hcc⟩ := List.exists_cons_of_ne_nil hne
    rw [synthesizeResults, hcc]
    rw [← hcc, he]
    rw [hcc]
    rfl

/-- Failing completion oracle for the C5 witness. -/
def c5failO : String → Except String String := fun _ => Except.error "down"

def c5taskF : TaskState :=
  ⟨"t1", "d", "llm_agent", "failed", "Task failed: x", some "d"⟩

def c5taskC : TaskState :=
  ⟨"t2", "d2", "neo4j_agent", "completed", "R2", some "d2"⟩

/-- Witness for C5: a run with only a failed task yields the apology
verbatim; a run with one completed task under a failing completion service
yields the concatenation fallback. -/
theorem claim_C5_witness :
    synthesizeResults [c5taskF] "q" c5failO = apologyMsg ∧
    synthesizeResults [c5taskF, c5taskC] "q" c5failO =
      String.intercalate "\n\n"
        (([c5taskF, c5taskC].filter (fun t => t.status = "completed")).map taskResultLine) :=
  ⟨(claim_C5 [c5taskF] "q" c5failO).2.1 (by decide),
   (claim_C5 [c5taskF, c5taskC] "q" c5failO).2.2 "down" rfl (by decide)⟩

/-- Claim C10: the free-text responder never raises — `LLMAgent.search`
catches everything and returns the error message as its result string — so a
task routed to `llm_agent` always ends `completed`, its result being exactly
the (total) `llmSearch` output on its recorded input, and when the internals
fail the result is the `"LLM Agent Error: " ++ e` text rather than a `failed`
status: the Engine failed branch is unreachable for this responder. -/
theorem claim_C10 (llmO : LLMOracles) (neoO : String → Except String (Option String))
    (ts : List PTask) (j : Nat) (t : PTask) (st : TaskState)
    (ht : (pyDictTasks ts)[j]? = some t)
    (hagent : t.agent = "llm_agent")
    (hst : (runTasks (dispatchAgent llmO neoO) (pyDictTasks ts))[j]? = some st) :
    st.status = "completed" ∧
    st.result = llmSearch llmO (st.actual_input.getD "") ∧
    (∀ e, llmSearchInner llmO (researchPromptOf (st.actual_input.getD "") "") =
        Except.error e →
      st.result = "LLM Agent Error: " ++ e) := by
  have hchar := runTasksAux_getElem (dispatchAgent llmO neoO) (pyDictTasks ts) [] j t ht
  simp only [List.length_nil, Nat.zero_add] at hchar
  rw [runTasks] at hst
  rw [hchar, Option.some.injEq] at hst
  have hai := execTaskStep_actual_input (dispatchAgent llmO neoO)
    ((runTasksAux (dispatchAgent llmO neoO) [] (pyDictTasks ts)).take j) t
    (((pyDictTasks ts).drop (j + 1)).map initState)
  rw [hst] at hai
  have hdisp : dispatchAgent llmO neoO t
      (stepInput ((runTasksAux (dispatchAgent llmO neoO) [] (pyDictTasks ts)).take j) t
        (((pyDictTasks ts).drop (j + 1)).map initState)) =
      Except.ok (llmSearch llmO
        (stepInput ((runTasksAux (dispatchAgent llmO neoO) [] (pyDictTasks ts)).take j) t
          (((pyDictTasks ts).drop (j + 1)).map initState))) := by
    rw [dispatchAgent, hagent]
    rfl
  have hok := execTaskStep_ok (dispatchAgent llmO neoO)
    ((runTasksAux (dispatchAgent llmO neoO) [] (pyDictTasks ts)).take j) t
    (((pyDictTasks ts).drop (j + 1)).map initState) _ hdisp
  refine ⟨by rw [← hst]; exact hok.1, ?_, ?_⟩
  · rw [hai]
    simp only [Option.getD_some]
    rw [← hst]
    exact hok.2
  · intro e he
    rw [hai] at he
    simp only [Option.getD_some] at he
    rw [← hst, hok.2, llmSearch.eq_def, he]


/-- Oracles for the C10 witness: every API call fails. -/
def c10llm : LLMOracles :=
  { primary := fun _ => Except.error "X"
    fbEmpty := fun _ => Except.error "X"
    fbExc := fun _ => Except.error "Y"
    modelName := "gpt-4o"
    now := "T" }

def c10neo : String → Except String (Option String) := fun _ => Except.error "NN"

def c10tasks : List PTask :=
  [ { id := "task_1", description := "d1", agent := "llm_agent" } ]

/-- Witness for C10: with every API call failing, the `llm_agent` task still
ends `completed`, its result being the caught error text. -/
theorem claim_C10_witness :
    (⟨"task_1", "d1", "llm_agent", "completed",
        "LLM Agent Error: Both models failed - GPT-5: X, GPT-4: Y", some "d1"⟩ :
      TaskState).status = "completed" ∧
    (⟨"task_1", "d1", "llm_agent", "completed",
        "LLM Agent Error: Both models failed - GPT-5: X, GPT-4: Y", some "d1"⟩ :
      TaskState).result = llmSearch c10llm
        ((⟨"task_1", "d1", "llm_agent", "completed",
            "LLM Agent Error: Both models failed - GPT-5: X, GPT-4: Y", some "d1"⟩ :
          TaskState).actual_input.getD "") ∧
    (∀ e, llmSearchInner c10llm (researchPromptOf
        ((⟨"task_1", "d1", "llm_agent", "completed",
            "LLM Agent Error: Both models failed - GPT-5: X, GPT-4: Y", some "d1"⟩ :
          TaskState).actual_input.getD "") "") = Except.error e →
      (⟨"task_1", "d1", "llm_agent", "completed",
          "LLM Agent Error: Both models failed - GPT-5: X, GPT-4: Y", some "d1"⟩ :
        TaskState).result = "LLM Agent Error: " ++ e) :=
  claim_C10 c10llm c10neo c10tasks 0 ⟨"task_1", "d1", "llm_agent"⟩
    ⟨"task_1", "d1", "llm_agent", "completed",
      "LLM Agent Error: Both models failed - GPT-5: X, GPT-4: Y", some "d1"⟩
    (by decide) rfl (by decide)


/-! ## Recorder lemmas and claims C8, C9 -/

theorem enumMapFrom_length {α β : Type} (f : Nat → α → β) :
    ∀ (l : List α) (i : Nat), (enumMapFrom f i l).length = l.length := by
  intro l
  induction l with
  | nil => intro i; rfl
  | cons a rest ih => intro i; rw [enumMapFrom, List.length_cons, List.length_cons, ih]

theorem enumMapFrom_getElem {α β : Type} (f : Nat → α → β) :
    ∀ (l : List α) (i k : Nat), (enumMapFrom f i l)[k]? = l[k]?.map (f (i + k)) := by
  intro l
  induction l with
  | nil => intro i k; rfl
  | cons a rest ih =>
    intro i k
    cases k with
    | zero => simp [enumMapFrom]
    | succ k =>
      rw [enumMapFrom]
      simp only [List.getElem?_cons_succ]
      rw [ih (i + 1) k, show i + 1 + k = i + (k + 1) from by omega]

theorem enumMapFrom_mem {α β : Type} (f : Nat → α → β) :
    ∀ (l : List α) (i : Nat) (b : β),
    b ∈ enumMapFrom f i l ↔ ∃ (k : Nat) (a : α), l[k]? = some a ∧ b = f (i + k) a := by
  intro l
  induction l with
  | nil => intro i b; simp [enumMapFrom]
  | cons a rest ih =>
    intro i b
    rw [enumMapFrom, List.mem_cons, ih]
    constructor
    · rintro (h | ⟨k, x, hk, hb⟩)
      · exact ⟨0, a, by simp, by simpa using h⟩
      · exact ⟨k + 1, x, by simpa using hk,
          by rw [hb, show i + 1 + k = i + (k + 1) from by omega]⟩
    · rintro ⟨k, x, hk, hb⟩
      cases k with
      | zero =>
        simp only [List.getElem?_cons_zero, Option.some.injEq] at hk
        subst hk
        left
        rw [hb, Nat.add_zero]
      | succ k =>
        simp only [List.getElem?_cons_succ] at hk
        right
        exact ⟨k, x, hk, by rw [hb, show i + (k + 1) = i + 1 + k from by omega]⟩

theorem groupTypes_fst_nodup (ts : List ATask) : ((groupTypes ts).map Prod.fst).Nodup := by
  have main : ∀ (l : List ATask) (acc : List (String × String)),
      ((acc.map Prod.fst).Nodup) → (((l.foldl groupAux acc).map Prod.fst).Nodup) := by
    intro l
    induction l with
    | nil => intro acc h; exact h
    | cons t rest ih =>
      intro acc h
      apply ih
      rw [groupAux]
      by_cases hc : acc.any (fun p => p.1 = typeOf t)
      · rw [if_pos hc]; exact h
      · rw [if_neg hc, List.map_append]
        simp only [List.map_cons, List.map_nil]
        rw [List.nodup_append]
        refine ⟨h, List.nodup_singleton _, ?_⟩
        intro x hx hx'
        simp only [List.mem_singleton] at hx'
        subst hx'
        obtain ⟨p, hp, hfst⟩ := List.mem_map.mp hx
        exact hc (List.any_eq_true.mpr ⟨p, hp, by simp [hfst]⟩)
  exact main ts [] (by simp)

theorem groupTypes_mem (ts : List ATask) (ty : String) :
    ty ∈ (groupTypes ts).map Prod.fst ↔ ty ∈ ts.map typeOf := by
  have main : ∀ (l : List ATask) (acc : List (String × String)),
      ty ∈ ((l.foldl groupAux acc).map Prod.fst) ↔
        (ty ∈ acc.map Prod.fst ∨ ty ∈ l.map typeOf) := by
    intro l
    induction l with
    | nil => intro acc; simp
    | cons t rest ih =>
      intro acc
      rw [List.foldl_cons, ih]
      by_cases hc : acc.any (fun p => p.1 = typeOf t)
      · rw [groupAux, if_pos hc]
        have hmem : typeOf t ∈ acc.map Prod.fst := by
          obtain ⟨p, hp, heq⟩ := List.any_eq_true.mp hc
          exact List.mem_map.mpr ⟨p, hp, by simpa using heq⟩
        simp only [List.map_cons, List.mem_cons]
        constructor
        · rintro (h | h)
          · exact Or.inl h
          · exact Or.inr (Or.inr h)
        · rintro (h | h | h)
          · exact Or.inl h
          · exact Or.inl (h ▸ hmem)
          · exact Or.inr h
      · rw [groupAux, if_neg hc]
        simp only [List.map_append, List.map_cons, List.map_nil, List.mem_append,
          List.mem_singleton, List.mem_cons]
        tauto
  have := main ts []
  simpa using this

theorem resultIdOf_ne_empty (q : String) (i : Nat) : resultIdOf q i ≠ "" := by
  intro h
  have hlen := congrArg String.length h
  rw [resultIdOf] at hlen
  rw [String.length_append, String.length_append, String.length_append] at hlen
  have h7 : ("result_" : String).length = 7 := rfl
  have h1 : ("_" : String).length = 1 := rfl
  have h0 : ("" : String).length = 0 := rfl
  rw [h7, h1, h0] at hlen
  omega

theorem agentResultsOf_snd_ne_empty (qid : String) (ts : List ATask) (k r : String)
    (h : (k, r) ∈ agentResultsOf qid ts) : r ≠ "" := by
  rw [agentResultsOf, enumMapFrom_mem] at h
  obtain ⟨i, t, -, hb⟩ := h
  have : r = resultIdOf qid (0 + i) := congrArg Prod.snd hb
  rw [this]
  exact resultIdOf_ne_empty qid (0 + i)

/-- Counterexample to claim C8: in a three-task run with three distinct
responders A, B, C, the `USED_INPUT_FROM` loop links the index-1 task's agent
to the result handle of the **later** index-2 task, because the loop iterates
the fully-built `agent_results` map with no position check. -/
def c8taskA : ATask := ⟨some "A", none, none, none, none⟩

def c8taskB : ATask := ⟨some "B", none, none, none, none⟩

def c8taskC : ATask := ⟨some "C", none, none, none, none⟩

def c8tasks : List ATask := [c8taskA, c8taskB, c8taskC]

theorem claim_C8_cex :
    ("b_q", "result_q_2") ∈ (createAgentsAndWorkflow "q" "o" c8tasks).usedInputFrom ∧
    ("C_2", "result_q_2") ∈ (createAgentsAndWorkflow "q" "o" c8tasks).agentResults := by
  decide

/-- Claim C8 (amended): `Agent -USED_INPUT_FROM-> Result` edges are created
exactly for the tasks whose index is greater than 0, targeting **every**
result handle of the run whose handle key's first `_`-separated component
differs from the task's responder name — prior and later tasks alike, since
the loop runs over the fully-built handle map with no position check. -/
theorem claim_C8_amended (qid orch : String) (ts : List ATask) (o r : String) :
    (o, r) ∈ (createAgentsAndWorkflow qid orch ts).usedInputFrom ↔
      ∃ (i : Nat) (t : ATask), ts[i]? = some t ∧ 0 < i ∧
        o = agentIdFor qid (groupNameFor ts (typeOf t)) ∧
        ∃ k, (k, r) ∈ agentResultsOf qid ts ∧ splitFirst k ≠ agentNameOf t := by
  show (o, r) ∈ usedInputFromOf qid ts (agentResultsOf qid ts) ↔ _
  rw [usedInputFromOf, List.mem_flatten]
  constructor
  · rintro ⟨sub, hsub, hmem⟩
    rw [enumMapFrom_mem] at hsub
    obtain ⟨i, t, hts, hsubeq⟩ := hsub
    subst hsubeq
    rw [List.mem_filterMap] at hmem
    obtain ⟨kr, hkr, hif⟩ := hmem
    by_cases hcond : splitFirst kr.1 ≠ agentNameOf t ∧ kr.2 ≠ "" ∧ 0 < 0 + i
    · rw [if_pos hcond] at hif
      rw [Option.some.injEq, Prod.mk.injEq] at hif
      refine ⟨i, t, hts, by omega, hif.1.symm, kr.1, ?_, hcond.1⟩
      rw [← hif.2]
      exact hkr
    · rw [if_neg hcond] at hif
      exact absurd hif (by simp)
  · rintro ⟨i, t, hts, hipos, ho, k, hkr, hsp⟩
    refine ⟨(agentResultsOf qid ts).filterMap (fun kr =>
      if splitFirst kr.1 ≠ agentNameOf t ∧ kr.2 ≠ "" ∧ 0 < 0 + i then
        some (agentIdFor qid (groupNameFor ts (typeOf t)), kr.2)
      else none), ?_, ?_⟩
    · rw [enumMapFrom_mem]
      exact ⟨i, t, hts, rfl⟩
    · rw [List.mem_filterMap]
      refine ⟨(k, r), hkr, ?_⟩
      rw [if_pos ⟨hsp, agentResultsOf_snd_ne_empty qid ts k r hkr, by omega⟩, ho]

/-- Witness for C8 (amended): the index-2 task's agent (responder C) is
linked to the index-0 result handle of responder A. -/
theorem claim_C8_witness :
    ("c_q", "result_q_0") ∈ (createAgentsAndWorkflow "q" "o" c8tasks).usedInputFrom :=
  (claim_C8_amended "q" "o" c8tasks "c_q" "result_q_0").mpr
    ⟨2, c8taskC, by decide, by omega, by decide, "A_0", by decide, by decide⟩

/-- Claim C9: the recorder creates exactly one `Agent` node per distinct
responder type appearing in the task list (one node per type, one type per
task-list type, each linked from the orchestrator via `USE_AGENT`), while
still creating one `Task` node and one `Result` node per task, with
`Task -PRODUCED-> Result` pairing the `i`-th task and result ids and
`Agent -ASSIGNED-> Task` linking the owning agent. -/
theorem claim_C9 (qid orch : String) (ts : List ATask) :
    ((createAgentsAndWorkflow qid orch ts).agentNodes.map AgentNodeW.type).Nodup ∧
    (∀ ty, ty ∈ (createAgentsAndWorkflow qid orch ts).agentNodes.map AgentNodeW.type ↔
      ty ∈ ts.map typeOf) ∧
    (createAgentsAndWorkflow qid orch ts).useAgent =
      (createAgentsAndWorkflow qid orch ts).agentNodes.map (fun a => (orch, a.id)) ∧
    (createAgentsAndWorkflow qid orch ts).taskNodes.length = ts.length ∧
    (createAgentsAndWorkflow qid orch ts).resultNodes.length = ts.length ∧
    (∀ (i : Nat) (t : ATask), ts[i]? = some t →
      (createAgentsAndWorkflow qid orch ts).produced[i]? =
        some (taskIdOf qid i, resultIdOf qid i) ∧
      (createAgentsAndWorkflow qid orch ts).assigned[i]? =
        some (agentIdFor qid (groupNameFor ts (typeOf t)), taskIdOf qid i) ∧
      (createAgentsAndWorkflow qid orch ts).taskNodes[i]? =
        some (taskIdOf qid i, taskDescOf t, taskInputOf t, i) ∧
      (createAgentsAndWorkflow qid orch ts).resultNodes[i]? =
        some (resultIdOf qid i, taskResultOf t, agentNameOf t, i)) := by
  have htype : (agentNodesOf qid ts).map AgentNodeW.type = (groupTypes ts).map Prod.fst := by
    rw [agentNodesOf, List.map_map]
    rfl
  refine ⟨?_, ?_, rfl, ?_, ?_, ?_⟩
  · show ((agentNodesOf qid ts).map AgentNodeW.type).Nodup
    rw [htype]
    exact groupTypes_fst_nodup ts
  · intro ty
    show ty ∈ (agentNodesOf qid ts).map AgentNodeW.type ↔ _
    rw [htype]
    exact groupTypes_mem ts ty
  · exact enumMapFrom_length _ ts 0
  · exact enumMapFrom_length _ ts 0
  · intro i t hts
    have hilt : i < ts.length := by
      by_contra hge
      rw [List.getElem?_eq_none (by omega)] at hts
      exact Option.noConfusion hts
    refine ⟨?_, ?_, ?_, ?_⟩
    · show ((List.range ts.length).map _)[i]? = _
      rw [List.getElem?_map, List.getElem?_range hilt]
      rfl
    · show (assignedOf qid ts)[i]? = _
      rw [assignedOf, enumMapFrom_getElem, hts]
      simp
    · show (taskNodesOf qid ts)[i]? = _
      rw [taskNodesOf, enumMapFrom_getElem, hts]
      simp
    · show (resultNodesOf qid ts)[i]? = _
      rw [resultNodesOf, enumMapFrom_getElem, hts]
      simp

/-- Two tasks of the same responder type for the C9 witness. -/
def c9task1 : ATask := ⟨some "Llm Agent", some "Llm Agent", some "t1", some "r1", some "i1"⟩

def c9task2 : ATask := ⟨some "Llm Agent", some "Llm Agent", some "t2", some "r2", some "i2"⟩

def c9tasks : List ATask := [c9task1, c9task2]

/-- Witness for C9: two tasks of the same responder type yield one `Agent`
node, two `Task`/`Result` pairs, and index-1 `PRODUCED`/`ASSIGNED` edges. -/
theorem claim_C9_witness :
    ((createAgentsAndWorkflow "q" "o" c9tasks).agentNodes.map AgentNodeW.type).Nodup ∧
    (createAgentsAndWorkflow "q" "o" c9tasks).taskNodes.length = c9tasks.length ∧
    (createAgentsAndWorkflow "q" "o" c9tasks).resultNodes.length = c9tasks.length ∧
    (createAgentsAndWorkflow "q" "o" c9tasks).produced[1]? =
      some (taskIdOf "q" 1, resultIdOf "q" 1) ∧
    (createAgentsAndWorkflow "q" "o" c9tasks).assigned[1]? =
      some (agentIdFor "q" (groupNameFor c9tasks (typeOf c9task2)), taskIdOf "q" 1) ∧
    (createAgentsAndWorkflow "q" "o" c9tasks).agentNodes.length = 1 :=
  ⟨(claim_C9 "q" "o" c9tasks).1,
   (claim_C9 "q" "o" c9tasks).2.2.2.1,
   (claim_C9 "q" "o" c9tasks).2.2.2.2.1,
   ((claim_C9 "q" "o" c9tasks).2.2.2.2.2 1 c9task2 (by decide)).1,
   ((claim_C9 "q" "o" c9tasks).2.2.2.2.2 1 c9task2 (by decide)).2.1,
   by decide⟩


/-! ## Recorder lemmas and claims C6, C7 -/

theorem mapMem_eq (m : List (String × String)) (k : String) :
    mapMem m k = (m.map Prod.fst).any (fun x => x = k) := by
  induction m with
  | nil => rfl
  | cons p rest ih =>
    rw [mapMem, List.any_cons, List.map_cons, List.any_cons]
    rw [mapMem] at ih
    rw [ih]

theorem mapInsert_fst_of_mem (m : List (String × String)) (k v : String)
    (h : m.any (fun p => p.1 = k)) :
    (mapInsert m k v).map Prod.fst = m.map Prod.fst := by
  rw [mapInsert, if_pos h, List.map_map]
  apply List.map_congr_left
  intro p _
  by_cases hpk : p.1 = k
  · simp only [Function.comp_apply, if_pos hpk]
    exact hpk.symm
  · simp only [Function.comp_apply, if_neg hpk]

theorem mapMem_mapInsert (m : List (String × String)) (k v k' : String)
    (h : mapMem m k' = true) : mapMem (mapInsert m k v) k' = true := by
  rw [mapMem_eq] at h ⊢
  by_cases hc : m.any (fun p => p.1 = k)
  · rw [mapInsert_fst_of_mem m k v hc]
    exact h
  · rw [mapInsert, if_neg hc, List.map_append, List.any_append, h]
    rfl

theorem processPrimaryAux_length (gid tsp : String) (ok : Nat → Bool) :
    ∀ (nodes : List RNode) (i : Nat) (m : List (String × String)),
    (processPrimaryAux gid tsp ok i m nodes).1.length = nodes.length := by
  intro nodes
  induction nodes with
  | nil => intro i m; rfl
  | cons nd rest ih =>
    intro i m
    rw [processPrimaryAux]
    simp only [List.length_cons]
    rw [ih]

theorem processPrimaryAux_elemIds (gid tsp : String) (ok : Nat → Bool) :
    ∀ (nodes : List RNode) (i : Nat) (m : List (String × String)),
    (processPrimaryAux gid tsp ok i m nodes).1.map AuditEntityWrite.element_id =
      enumMapFrom primaryElemId i nodes := by
  intro nodes
  induction nodes with
  | nil => intro i m; rfl
  | cons nd rest ih =>
    intro i m
    rw [processPrimaryAux, enumMapFrom]
    simp only [List.map_cons]
    rw [ih]
    congr 1
    by_cases hok : ok i = true
    · rw [if_pos hok]
      rfl
    · rw [if_neg hok]
      rfl

theorem processAdditionalAux_not_mem (gid name tsp : String) (ok : Nat → Bool) :
    ∀ (nodes : List RNode) (i : Nat) (m : List (String × String)) (w : AuditEntityWrite),
    w ∈ (processAdditionalAux gid name tsp ok i m nodes).1 →
      mapMem m w.element_id = false := by
  intro nodes
  induction nodes with
  | nil =>
    intro i m w h
    rw [processAdditionalAux] at h
    exact absurd h (List.not_mem_nil w)
  | cons nd rest ih =>
    intro i m w h
    rw [processAdditionalAux] at h
    by_cases hcond : pyTruthy (additionalElemId nd) ∧
        ¬ mapMem m ((additionalElemId nd).getD "")
    · rw [if_pos hcond] at h
      by_cases hok : ok i = true
      · rw [if_pos hok] at h
        rcases List.mem_cons.mp h with hw | hw
        · subst hw
          rw [show (materializeLabeled
              ("additional_" ++ name ++ "_" ++ gid ++ "_" ++ toString i)
              ((additionalElemId nd).getD "") tsp nd).element_id =
              (additionalElemId nd).getD "" from rfl]
          cases hm : mapMem m ((additionalElemId nd).getD "")
          · rfl
          · exact absurd hm hcond.2
        · have hrec := ih (i + 1)
            (mapInsert m ((additionalElemId nd).getD "")
              ("additional_" ++ name ++ "_" ++ gid ++ "_" ++ toString i)) w hw
          cases hm : mapMem m w.element_id
          · rfl
          · have := mapMem_mapInsert m ((additionalElemId nd).getD "")
              ("additional_" ++ name ++ "_" ++ gid ++ "_" ++ toString i)
              w.element_id hm
            rw [this] at hrec
            exact Bool.noConfusion hrec
      · rw [if_neg hok] at h
        exact ih (i + 1) m w h
    · rw [if_neg hcond] at h
      exact ih (i + 1) m w h

theorem collectRetrievedNodes_spec :
    ∀ (slots : List (Option RawNode)) (seen : List String),
    ((collectRetrievedNodes slots seen).map (fun n => n.nodeId.getD "")).Nodup ∧
    (∀ n ∈ collectRetrievedNodes slots seen,
      n.elementId = none ∧ n.nodeId.isSome ∧
        seen.contains (n.nodeId.getD "") = false) := by
  intro slots
  induction slots with
  | nil =>
    intro seen
    refine ⟨List.nodup_nil, ?_⟩
    intro n hn
    rw [collectRetrievedNodes] at hn
    exact absurd hn (List.not_mem_nil n)
  | cons slot rest ih =>
    intro seen
    cases slot with
    | none =>
      rw [collectRetrievedNodes]
      exact ih seen
    | some r =>
      rw [collectRetrievedNodes]
      by_cases hc : seen.contains r.elementId
      · rw [if_pos hc]
        exact ih seen
      · rw [if_neg hc]
        obtain ⟨ihn, ihm⟩ := ih (r.elementId :: seen)
        constructor
        · rw [List.map_cons]
          rw [List.nodup_cons]
          refine ⟨?_, ihn⟩
          intro hmem
          obtain ⟨n, hn, hgd⟩ := List.mem_map.mp hmem
          have hcontains := (ihm n hn).2.2
          rw [hgd] at hcontains
          rw [show (retrievalNodeOf r).nodeId.getD "" = r.elementId from rfl] at hcontains
          rw [List.contains_cons] at hcontains
          simp at hcontains
        · intro n hn
          rcases List.mem_cons.mp hn with hw | hw
          · subst hw
            refine ⟨rfl, rfl, ?_⟩
            rw [show (retrievalNodeOf r).nodeId.getD "" = r.elementId from rfl]
            cases hcc : seen.contains r.elementId
            · rfl
            · exact absurd hcc hc
          · obtain ⟨h1, h2, h3⟩ := ihm n hw
            refine ⟨h1, h2, ?_⟩
            rw [List.contains_cons] at h3
            exact (Bool.or_eq_false_iff.mp h3).2

theorem enumMapFrom_primaryElemId (l : List RNode)
    (h : ∀ n ∈ l, n.elementId = none ∧ n.nodeId.isSome) :
    ∀ i : Nat, enumMapFrom primaryElemId i l = l.map (fun n => n.nodeId.getD "") := by
  induction l with
  | nil => intro i; rfl
  | cons nd rest ih =>
    intro i
    rw [enumMapFrom, List.map_cons]
    obtain ⟨he, hsome⟩ := h nd (List.mem_cons_self nd rest)
    congr 1
    · rw [primaryElemId, he]
      rw [show pyTruthy none = false from rfl]
      simp only [Bool.false_eq_true, if_false]
      obtain ⟨e, he'⟩ := Option.isSome_iff_exists.mp hsome
      rw [he']
      rfl
    · exact ih (fun n hn => h n (List.mem_cons_of_mem nd hn)) (i + 1)

/-- Counterexample to claim C6: two entries of the primary retrieved-node
list reporting the same external identifier `"x"` are **both** materialized
(two audit nodes `entity_g_0`, `entity_g_1`), not skipped: the primary loop
never consults the deduplication map before creating. -/
theorem claim_C6_cex :
    ((processPrimaryNodes "g" "T" (fun _ => true)
        [⟨some "x", none, [], []⟩, ⟨some "x", none, [], []⟩]).1.map
      AuditEntityWrite.element_id) = ["x", "x"] ∧
    ((processPrimaryNodes "g" "T" (fun _ => true)
        [⟨some "x", none, [], []⟩, ⟨some "x", none, [], []⟩]).1.map
      AuditEntityWrite.audit_id) = ["entity_g_0", "entity_g_1"] := by
  decide

/-- Claim C6 (amended): the recorder materializes one audit node per entry of
the primary retrieved-node list unconditionally (duplicated external
identifiers included — the dedup map merely records the latest audit id);
only the supplementary node lists consult the map, skipping any identifier
already present; and because the Retrieval Service model
(`_get_retrieved_graph_data`) already deduplicates by element id, every node
list it hands over is duplicate-free, so in the composed pipeline each
retrieved node is still materialized at most once per `GraphRetrieval`. -/
theorem claim_C6_amended (gid name tsp : String) (ok : Nat → Bool) :
    (∀ nodes : List RNode, (processPrimaryNodes gid tsp ok nodes).1.length = nodes.length) ∧
    (∀ (m : List (String × String)) (nodes : List RNode) (w : AuditEntityWrite),
      w ∈ (processAdditionalList gid name tsp ok m nodes).1 →
        mapMem m w.element_id = false) ∧
    (∀ slots : List (Option RawNode),
      ((processPrimaryNodes gid tsp ok (collectRetrievedNodes slots [])).1.map
        AuditEntityWrite.element_id).Nodup) := by
  refine ⟨?_, ?_, ?_⟩
  · intro nodes
    exact processPrimaryAux_length gid tsp ok nodes 0 []
  · intro m nodes w hw
    exact processAdditionalAux_not_mem gid name tsp ok nodes 0 m w hw
  · intro slots
    rw [processPrimaryNodes, processPrimaryAux_elemIds]
    rw [enumMapFrom_primaryElemId (collectRetrievedNodes slots [])
      (fun n hn => ⟨((collectRetrievedNodes_spec slots []).2 n hn).1,
        ((collectRetrievedNodes_spec slots []).2 n hn).2.1⟩) 0]
    exact (collectRetrievedNodes_spec slots []).1

/-- Witness for C6 (amended) at concrete inputs: one primary node gives one
write; a fresh supplementary node (id `"y"` absent from the map) is created
exactly because its identifier was not yet in the map; and a two-slot
retrieval reporting the same element id twice yields a duplicate-free
primary write list. -/
theorem claim_C6_witness :
    (processPrimaryNodes "g" "T" (fun _ => true) [⟨some "x", none, [], []⟩]).1.length =
      [(⟨some "x", none, [], []⟩ : RNode)].length ∧
    mapMem [("x", "entity_g_0")]
      (materializeLabeled "additional_entity_nodes_g_0" "y" "T"
        ⟨some "y", none, [], []⟩).element_id = false ∧
    ((processPrimaryNodes "g" "T" (fun _ => true)
        (collectRetrievedNodes [some ⟨"x", [], []⟩, some ⟨"x", [], []⟩] [])).1.map
      AuditEntityWrite.element_id).Nodup :=
  ⟨(claim_C6_amended "g" "entity_nodes" "T" (fun _ => true)).1 [⟨some "x", none, [], []⟩],
   (claim_C6_amended "g" "entity_nodes" "T" (fun _ => true)).2.1
     [("x", "entity_g_0")] [⟨some "y", none, [], []⟩]
     (materializeLabeled "additional_entity_nodes_g_0" "y" "T" ⟨some "y", none, [], []⟩)
     (by decide),
   (claim_C6_amended "g" "entity_nodes" "T" (fun _ => true)).2.2
     [some ⟨"x", [], []⟩, some ⟨"x", [], []⟩]⟩


theorem cleanKeyChar_fix (a c : Char) (hc : c ≠ (Char.ofNat 95)) (h : cleanKeyChar a = c) :
    a = c := by
  rw [cleanKeyChar] at h
  by_cases ha : a = '-' ∨ a = ' '
  · rw [if_pos ha] at h
    exact absurd (h.symm.trans (by decide)) hc
  · rw [if_neg ha] at h
    exact h

theorem map_cleanKeyChar_fix :
    ∀ (l tgt : List Char), (∀ c ∈ tgt, c ≠ (Char.ofNat 95)) →
    l.map cleanKeyChar = tgt → l = tgt := by
  intro l
  induction l with
  | nil => intro tgt _ h; exact h
  | cons a l2 ih =>
    intro tgt htgt h
    rw [List.map_cons] at h
    cases tgt with
    | nil => exact absurd h (by simp)
    | cons c cs =>
      injection h with ha hl
      have hac := cleanKeyChar_fix a c (htgt c (List.mem_cons_self c cs)) ha
      rw [hac, ih cs (fun x hx => htgt x (List.mem_cons_of_mem c hx)) hl]

/-- The key-cleaning map hits `"embedding"` only from `"embedding"` itself
(no char of `"embedding"` is an underscore, and the map only rewrites
characters into underscores). -/
theorem cleanKey_eq_embedding (k : String) (h : cleanKey k = "embedding") :
    k = "embedding" := by
  have hd : k.data.map cleanKeyChar = ("embedding" : String).data := by
    have := congrArg String.data h
    exact this
  exact String.ext (map_cleanKeyChar_fix k.data ("embedding" : String).data (by decide) hd)

theorem nullEmbedding_key (props : List (String × Option String)) :
    ∀ kv ∈ nullEmbedding props, kv.1 = "embedding" → kv.2 = none := by
  intro kv hkv hk
  obtain ⟨kv0, hkv0, heq⟩ := List.mem_map.mp hkv
  by_cases h0 : kv0.1 = "embedding"
  · rw [if_pos h0] at heq
    rw [← heq]
  · rw [if_neg h0] at heq
    rw [← heq] at hk
    exact absurd hk h0

/-- Counterexample to claim C7: a retrieved node carrying an original
property named `"timestamp"` (value `"2020"`) does **not** keep it — the key
collides with the recorder-reserved audit keys, so the persisted node holds
the audit timestamp instead of the original property value. -/
theorem claim_C7_cex :
    ¬ (("timestamp", "2020") ∈
      (materializeLabeled "entity_g_0" "x" "T0"
        (retrievalNodeOf ⟨"x", ["Movie"], [("timestamp", some "2020")]⟩)).props) := by
  decide

/-- Claim C7 (amended): a node coming out of the retrieval post-processing
and materialized by the recorder carries the original label set
(space-containing labels back-quoted) and every original property whose key
is not among the reserved audit keys (`audit_id`, `original_element_id`,
`timestamp`), with keys cleaned (`-`/space → `_`) and values stringified —
and any vector-embedding property was already nulled by the retrieval and is
persisted as the empty string: the embedding value is never written into the
audit trail. -/
theorem claim_C7_amended (nid eid tsp : String) (labels : List String)
    (rawProps : List (String × Option String)) :
    (materializeLabeled nid eid tsp (retrievalNodeOf ⟨eid, labels, rawProps⟩)).labelsStr =
      labelsJoin labels ∧
    (∀ v, ("embedding", v) ∈
        (materializeLabeled nid eid tsp (retrievalNodeOf ⟨eid, labels, rawProps⟩)).props →
      v = "") ∧
    (∀ k v, (k, v) ∈ rawProps → reservedKeys.contains k = false → k ≠ "embedding" →
      (cleanKey k, pyStrOpt v) ∈
        (materializeLabeled nid eid tsp (retrievalNodeOf ⟨eid, labels, rawProps⟩)).props) ∧
    ((∃ v0, ("embedding", v0) ∈ rawProps) →
      ("embedding", "") ∈
        (materializeLabeled nid eid tsp (retrievalNodeOf ⟨eid, labels, rawProps⟩)).props) := by
  have hprops : (materializeLabeled nid eid tsp
      (retrievalNodeOf ⟨eid, labels, rawProps⟩)).props =
      [("audit_id", nid), ("original_element_id", eid), ("timestamp", tsp)] ++
        auditProps (nullEmbedding rawProps) := rfl
  refine ⟨rfl, ?_, ?_, ?_⟩
  · intro v hv
    rw [hprops] at hv
    rcases List.mem_append.mp hv with hb | hm
    · rcases List.mem_cons.mp hb with h | hb
      · have hfst : ("embedding" : String) = "audit_id" := congrArg Prod.fst h
        exact absurd hfst (by decide)
      rcases List.mem_cons.mp hb with h | hb
      · have hfst : ("embedding" : String) = "original_element_id" := congrArg Prod.fst h
        exact absurd hfst (by decide)
      rcases List.mem_cons.mp hb with h | hb
      · have hfst : ("embedding" : String) = "timestamp" := congrArg Prod.fst h
        exact absurd hfst (by decide)
      · exact absurd hb (List.not_mem_nil _)
    · rw [auditProps] at hm
      obtain ⟨kv, hkv, heq⟩ := List.mem_map.mp hm
      have hk : cleanKey kv.1 = "embedding" := (congrArg Prod.fst heq)
      have hke := cleanKey_eq_embedding kv.1 hk
      have hkv2 : kv ∈ nullEmbedding rawProps := (List.mem_filter.mp hkv).1
      have hnone := nullEmbedding_key rawProps kv hkv2 hke
      have hv2 : pyStrOpt kv.2 = v := congrArg Prod.snd heq
      rw [hnone] at hv2
      exact hv2.symm
  · intro k v hkv hres hkemb
    rw [hprops]
    apply List.mem_append.mpr
    right
    rw [auditProps]
    apply List.mem_map.mpr
    refine ⟨(k, v), ?_, rfl⟩
    apply List.mem_filter.mpr
    refine ⟨?_, ?_⟩
    · apply List.mem_map.mpr
      refine ⟨(k, v), hkv, ?_⟩
      rw [if_neg hkemb]
    · simp only [decide_not]
      rw [hres]
      decide
  · rintro ⟨v0, hv0⟩
    rw [hprops]
    apply List.mem_append.mpr
    right
    rw [auditProps]
    apply List.mem_map.mpr
    refine ⟨("embedding", none), ?_, by decide⟩
    apply List.mem_filter.mpr
    refine ⟨?_, by decide⟩
    apply List.mem_map.mpr
    exact ⟨("embedding", v0), hv0, by rw [if_pos rfl]⟩

/-- Witness for C7 (amended): a concrete movie node with a space-containing
label, a `title` property and an `embedding` property: labels survive
(quoted), `title` survives, the embedding is persisted as the empty string. -/
theorem claim_C7_witness :
    (materializeLabeled "entity_g_0" "x" "T0"
      (retrievalNodeOf ⟨"x", ["Movie", "Sci Fi"],
        [("title", some "Dune"), ("embedding", some "vec")]⟩)).labelsStr =
      labelsJoin ["Movie", "Sci Fi"] ∧
    (cleanKey "title", pyStrOpt (some "Dune")) ∈
      (materializeLabeled "entity_g_0" "x" "T0"
        (retrievalNodeOf ⟨"x", ["Movie", "Sci Fi"],
          [("title", some "Dune"), ("embedding", some "vec")]⟩)).props ∧
    ("embedding", "") ∈
      (materializeLabeled "entity_g_0" "x" "T0"
        (retrievalNodeOf ⟨"x", ["Movie", "Sci Fi"],
          [("title", some "Dune"), ("embedding", some "vec")]⟩)).props :=
  ⟨(claim_C7_amended "entity_g_0" "x" "T0" ["Movie", "Sci Fi"]
      [("title", some "Dune"), ("embedding", some "vec")]).1,
   (claim_C7_amended "entity_g_0" "x" "T0" ["Movie", "Sci Fi"]
      [("title", some "Dune"), ("embedding", some "vec")]).2.2.1 "title" (some "Dune")
     (by decide) (by decide) (by decide),
   (claim_C7_amended "entity_g_0" "x" "T0" ["Movie", "Sci Fi"]
      [("title", some "Dune"), ("embedding", some "vec")]).2.2.2 ⟨some "vec", by decide⟩⟩
